import Mathlib

/-!
Verification development for the constellation repository: a shallow embedding of
the gesture interpretation and physics-driven animation engine, with theorems
settling the specification claims about it.

Numbers: JavaScript doubles are modelled by exact rationals; every decimal
constant of the source (0.6, 0.95, 1.5, ...) is written as the same rational.
Time stamps (Date.now values, milliseconds) are modelled by integers.
-/

/- ---------------------------------------------------------------------------
Wave detector (src/utils/media.ts, checkForWave and triggerWaveToggle).
State is the App-level ref waveState = { phase, lastTime, cooldown }.
--------------------------------------------------------------------------- -/

/-- State of the wave detector: phase is 0 (neutral), 1 (started right) or
-1 (started left); lastTime is the time of the last swing start; cooldown is
the time until which events are suppressed. -/
structure WaveSt where
  phase : Int
  lastTime : Int
  cooldown : Int
  deriving DecidableEq

/-- Initial wave state: useRef({ phase: 0, lastTime: 0, cooldown: 0 }). -/
def waveInit : WaveSt := ⟨0, 0, 0⟩

/-- Translation of checkForWave (media.ts lines 192-221) together with the body
of triggerWaveToggle (lines 223-227). Returns the updated state and whether a
wave toggle event fired on this call. V_THRESH = 0.6. -/
def checkForWave (s : WaveSt) (now : Int) (vx : ℚ) : WaveSt × Bool :=
  if now < s.cooldown then (s, false)
  else
    -- reset phase if too much time passed (> 600ms between swings)
    let s1 := if now - s.lastTime > 600 then { s with phase := 0 } else s
    if s1.phase = 0 then
      if vx > 6/10 then ({ s1 with phase := 1, lastTime := now }, false)
      else if vx < -(6/10) then ({ s1 with phase := -1, lastTime := now }, false)
      else (s1, false)
    else
      if s1.phase = 1 ∧ vx < -(6/10) then
        ({ s1 with phase := 0, cooldown := now + 1500 }, true)
      else if s1.phase = -1 ∧ vx > 6/10 then
        ({ s1 with phase := 0, cooldown := now + 1500 }, true)
      else (s1, false)

/-- Feed a list of (time, velocity.x) samples to the wave detector, counting the
wave toggle events that fire. -/
def runWave : WaveSt → List (Int × ℚ) → WaveSt × Nat
  | s, [] => (s, 0)
  | s, (t, v) :: rest =>
    let r := checkForWave s t v
    let w := runWave r.1 rest
    (w.1, (if r.2 then 1 else 0) + w.2)

/- ---------------------------------------------------------------------------
Playback-control gesture detector (src/components/MusicPlayer.tsx).
--------------------------------------------------------------------------- -/

/-- Playback part of AppState: the track list (as ids), current index, playing
flag and volume. -/
structure MusicState where
  audioTracks : List Nat
  currentTrackIndex : Nat
  isPlaying : Bool
  volume : ℚ
  deriving DecidableEq

/-- Per-detector mutable refs of MusicPlayer: lastActionTime, wasPinching and
wasOpen (lines 22-24). -/
structure DetSt where
  lastActionTime : Int
  wasPinching : Bool
  wasOpen : Bool
  deriving DecidableEq

/-- One frame of gesture input read by checkGestures: the wall-clock time, the
gesture bundle fields it destructures, and the smoothed openness. -/
structure GestIn where
  now : Int
  vx : ℚ
  vy : ℚ
  isPinching : Bool
  rot : ℚ
  openness : ℚ
  deriving DecidableEq

/-- Which of the discrete (edge-triggered) gesture actions fired on a frame. -/
structure Acts where
  throwRemove : Bool
  playOpen : Bool
  pauseFist : Bool
  pinchToggle : Bool
  nextTrack : Bool
  prevTrack : Bool
  deriving DecidableEq

/-- No discrete action fired. -/
def noActs : Acts := ⟨false, false, false, false, false, false⟩

/-- Whether any discrete action fired. -/
def Acts.some (a : Acts) : Bool :=
  a.throwRemove || a.playOpen || a.pauseFist || a.pinchToggle || a.nextTrack || a.prevTrack

/-- Translation of the pinch-and-throw state updater (MusicPlayer.tsx lines
114-126): if at most one track remains the state is returned unchanged,
otherwise the current track is removed via
audioTracks.filter((unused, i) => i !== currentTrackIndex) and the index is
re-taken modulo the shortened list. -/
def removeCurrent (app : MusicState) : MusicState :=
  if app.audioTracks.length ≤ 1 then app
  else
    let newTracks :=
      (app.audioTracks.enum.filter (fun p => p.1 != app.currentTrackIndex)).map Prod.snd
    { app with
      audioTracks := newTracks
      currentTrackIndex := app.currentTrackIndex % newTracks.length
      isPlaying := true }

/-- Section 2 of checkGestures (PLAY / PAUSE, lines 131-151): in the music
template, an open palm (openness > 0.8) plays and a fist (openness < 0.2)
pauses, both gated on the playing flag and a 500ms window from the shared
last-action time; otherwise a rising pinch edge with a 1000ms window toggles. -/
def sec2PlayPause (isMusicTemplate : Bool) (inp : GestIn) (app : MusicState)
    (det : DetSt) : MusicState × DetSt × Acts :=
  if isMusicTemplate = true then
    if inp.openness > 4/5 ∧ app.isPlaying = false ∧ inp.now - det.lastActionTime > 500 then
      ({ app with isPlaying := true }, { det with lastActionTime := inp.now },
        { noActs with playOpen := true })
    else if inp.openness < 1/5 ∧ app.isPlaying = true ∧
        inp.now - det.lastActionTime > 500 then
      ({ app with isPlaying := false }, { det with lastActionTime := inp.now },
        { noActs with pauseFist := true })
    else (app, det, noActs)
  else
    if inp.isPinching = true ∧ det.wasPinching = false ∧
        inp.now - det.lastActionTime > 1000 then
      ({ app with isPlaying := !app.isPlaying }, { det with lastActionTime := inp.now },
        { noActs with pinchToggle := true })
    else (app, det, noActs)

/-- Section 3 of checkGestures (SKIP / PREV, lines 153-175): horizontal swipe
beyond plus/minus 0.5 with an 800ms window from the shared last-action time.
The JS index update (idx - 1 + length) % length is written over ℕ as
(idx + length - 1) % length, equal to it whenever the list is nonempty. -/
def sec3Skip (inp : GestIn) (app : MusicState) (det : DetSt) (acts : Acts) :
    MusicState × DetSt × Acts :=
  if inp.now - det.lastActionTime > 800 then
    if inp.vx > 1/2 then
      ({ app with
          currentTrackIndex := (app.currentTrackIndex + 1) % app.audioTracks.length
          isPlaying := true },
        { det with lastActionTime := inp.now }, { acts with nextTrack := true })
    else if inp.vx < -(1/2) then
      ({ app with
          currentTrackIndex :=
            (app.currentTrackIndex + app.audioTracks.length - 1) % app.audioTracks.length
          isPlaying := true },
        { det with lastActionTime := inp.now }, { acts with prevTrack := true })
    else (app, det, acts)
  else (app, det, acts)

/-- Section 4 of checkGestures (SEEK, lines 177-188): twisting beyond plus/minus
0.6 moves the audio element currentTime by 0.2s each frame; continuous, no
cooldown, does not touch the last-action time. -/
def sec4Seek (isMusicTemplate : Bool) (inp : GestIn) (audioTime : ℚ) : ℚ :=
  if isMusicTemplate = true then
    if inp.rot > 3/5 then audioTime + 1/5
    else if inp.rot < -(3/5) then audioTime - 1/5
    else audioTime
  else audioTime

/-- Section 5 of checkGestures (VOLUME, lines 190-200): vertical velocity beyond
0.2 in magnitude maps continuously to a clamped volume delta; only in control
mode outside the template; does not touch the last-action time. -/
def sec5Volume (isMusicTemplate isControlMode : Bool) (inp : GestIn)
    (app : MusicState) : MusicState :=
  if isControlMode = true ∧ isMusicTemplate = false ∧ |inp.vy| > 1/5 then
    { app with volume := max 0 (min 1 (app.volume + inp.vy * (1/20))) }
  else app

/-- Translation of one invocation of checkGestures (MusicPlayer.tsx lines
103-206). speedMag = Math.sqrt(vx*vx + vy*vy) > 1.5 is stated equivalently on
squares (both sides nonnegative). The PINCH & THROW section returns early, so
on a throw frame the wasPinching / wasOpen refs are not updated. Returns the
updated app state, the audio element currentTime, the detector refs, and which
discrete actions fired. -/
def checkGestures (isMusicTemplate isControlMode : Bool) (inp : GestIn)
    (app : MusicState) (audioTime : ℚ) (det : DetSt) :
    MusicState × ℚ × DetSt × Acts :=
  if isMusicTemplate = true ∧ inp.isPinching = true ∧
      inp.vx * inp.vx + inp.vy * inp.vy > 9/4 ∧
      inp.now - det.lastActionTime > 1500 then
    (removeCurrent app, audioTime, { det with lastActionTime := inp.now },
      { noActs with throwRemove := true })
  else
    let r2 := sec2PlayPause isMusicTemplate inp app det
    let r3 := sec3Skip inp r2.1 r2.2.1 r2.2.2
    (sec5Volume isMusicTemplate isControlMode inp r3.1,
      sec4Seek isMusicTemplate inp audioTime,
      { r3.2.1 with wasPinching := inp.isPinching
                    wasOpen := decide (inp.openness > 4/5) },
      r3.2.2)

/-- Translation of handleEnded (MusicPlayer.tsx lines 212-217): auto-advance to
the next track, wrapping modulo the track count. -/
def handleEnded (app : MusicState) : MusicState :=
  { app with currentTrackIndex := (app.currentTrackIndex + 1) % app.audioTracks.length }

/-- Run checkGestures over a list of input frames, collecting the per-frame
fired-action records. -/
def runGestures (tmpl ctl : Bool) :
    MusicState × ℚ × DetSt → List GestIn → (MusicState × ℚ × DetSt) × List Acts
  | w, [] => (w, [])
  | w, inp :: rest =>
    let r := checkGestures tmpl ctl inp w.1 w.2.1 w.2.2
    let w2 := runGestures tmpl ctl (r.1, r.2.1, r.2.2.1) rest
    (w2.1, r.2.2.2 :: w2.2)

/-- Number of open-palm play actions in a list of per-frame action records. -/
def countPlay (l : List Acts) : Nat := (l.filter (fun a => a.playOpen)).length

/- ---------------------------------------------------------------------------
3D music interface state machine (src/unnamed/part_000, MusicInterfaceSystem).
--------------------------------------------------------------------------- -/

/-- Points and vectors of the control-surface plane. -/
structure V3 where
  x : ℚ
  y : ℚ
  z : ℚ
  deriving DecidableEq

/-- Componentwise sum, modelling THREE.Vector3.add. -/
def V3.add (a b : V3) : V3 := ⟨a.x + b.x, a.y + b.y, a.z + b.z⟩

/-- Componentwise difference, modelling THREE.Vector3.sub. -/
def V3.sub (a b : V3) : V3 := ⟨a.x - b.x, a.y - b.y, a.z - b.z⟩

/-- The three interactive buttons of the music interface. -/
inductive BtnId
  | prevB
  | playB
  | nextB
  deriving DecidableEq

/-- A named circular hit zone in the group's local space. -/
structure HitZone where
  bid : BtnId
  hx : ℚ
  hy : ℚ
  hr : ℚ

/-- The fixed hit-zone list (part_000 lines 291-295), in declaration order:
prev at (-3.5, 0) radius 1.5, play at (0, 0) radius 2.0, next at (3.5, 0)
radius 1.5. -/
def hitZones : List HitZone :=
  [⟨.prevB, -(7/2), 0, 3/2⟩, ⟨.playB, 0, 0, 2⟩, ⟨.nextB, 7/2, 0, 3/2⟩]

/-- Hover resolution (lines 297-307): scan the zones in order, first zone whose
center is within its radius of the local cursor wins. The source compares
Math.sqrt(dx*dx + dy*dy) < r; this is stated equivalently on squares. -/
def findHover (lc : V3) : Option BtnId :=
  (hitZones.find? (fun z =>
    decide ((lc.x - z.hx) * (lc.x - z.hx) + (lc.y - z.hy) * (lc.y - z.hy) < z.hr * z.hr))).map
    (fun z => z.bid)

/-- Translation of handleButtonClick (lines 345-361). -/
def handleButtonClick (b : BtnId) (app : MusicState) : MusicState :=
  match b with
  | .playB => { app with isPlaying := !app.isPlaying }
  | .nextB =>
    { app with
      currentTrackIndex := (app.currentTrackIndex + 1) % app.audioTracks.length
      isPlaying := true }
  | .prevB =>
    { app with
      currentTrackIndex :=
        (app.currentTrackIndex + app.audioTracks.length - 1) % app.audioTracks.length
      isPlaying := true }

/-- Interaction state of MusicInterfaceSystem: the draggable group position,
the dragging flag, the captured drag offset, the hovered button and the
wasPinching ref. -/
structure IfaceSt where
  groupPos : V3
  isDragging : Bool
  dragOffset : V3
  hoveredButton : Option BtnId
  wasPinching : Bool
  deriving DecidableEq

/-- Translation of the interaction part of the MusicInterfaceSystem frame
callback (part_000 lines 286-342), taking the 3D cursor point (the ray-plane
projection) as input. React state setters are queued, so the drag-position
update at the end of the callback still reads the pre-frame isDragging flag;
the ref dragOffset, in contrast, is updated synchronously. Returns the new
interaction state, the new app state, and the button whose action fired. -/
def musicIfaceFrame (st : IfaceSt) (app : MusicState) (cursorPos : V3)
    (isPinching : Bool) : IfaceSt × MusicState × Option BtnId :=
  let lc := cursorPos.sub st.groupPos
  let foundHover := if st.isDragging = true then none else findHover lc
  let r : Bool × V3 × MusicState × Option BtnId :=
    if isPinching = true ∧ st.wasPinching = false then
      match foundHover with
      | some b => (st.isDragging, st.dragOffset, handleButtonClick b app, some b)
      | none => (true, st.groupPos.sub cursorPos, app, none)
    else if isPinching = false ∧ st.wasPinching = true then
      (false, st.dragOffset, app, none)
    else (st.isDragging, st.dragOffset, app, none)
  let newPos :=
    if st.isDragging = true ∧ isPinching = true then cursorPos.add r.2.1 else st.groupPos
  (⟨newPos, r.1, r.2.1, foundHover, isPinching⟩, r.2.2.1, r.2.2.2)

/- ---------------------------------------------------------------------------
Semantic gesture bundle (src/types.ts GestureData, src/unnamed/part_000
HandTracker, and the App.tsx mouse fallback).
--------------------------------------------------------------------------- -/

/-- A normalized 2D point or vector. -/
structure Vec2 where
  x : ℚ
  y : ℚ
  deriving DecidableEq

/-- The semantic gesture bundle. The GestureData interface declares all five
fields as required; pos is an Option because the JS object literals that
initialize the App ref and the mouse fallback omit the position field, which
then reads as undefined. -/
structure GestureBundle where
  vel : Vec2
  pinchDistance : ℚ
  rot : ℚ
  isPinching : Bool
  pos : Option Vec2
  deriving DecidableEq

/-- The initial value of the App-level gestureDataRef:
useRef of { velocity: {x:0,y:0}, pinchDistance: 0, rotation: 0,
isPinching: false }. No position field, and pinchDistance 0. -/
def initialGestureData : GestureBundle := ⟨⟨0, 0⟩, 0, 0, false, none⟩

/-- The neutral bundle emitted by the HandTracker when no hand is detected
(part_000 lines 141-147). -/
def neutralBundle : GestureBundle := ⟨⟨0, 0⟩, 1, 0, false, some ⟨1/2, 1/2⟩⟩

/-- Abstract environment for the transcendental Math functions and the
Math.random stream: each field gives the (finite) value returned on arguments
for which the JS function is finite; rand n is the n-th Math.random draw. -/
structure MathEnv where
  sinq : ℚ → ℚ
  cosq : ℚ → ℚ
  acosq : ℚ → ℚ
  sqrtq : ℚ → ℚ
  powq : ℚ → ℚ → ℚ
  atanq : ℚ → ℚ → ℚ
  rand : ℕ → ℚ

/-- Math.random returns values in [0, 1). -/
def EnvOK (e : MathEnv) : Prop := ∀ n, 0 ≤ e.rand n ∧ e.rand n < 1

/-- The exact double value of Math.PI. -/
def ratPi : ℚ := 884279719003555 / 281474976710656

/-- getDist of predictWebcam: Math.sqrt of a sum of two squares; the argument
is always nonnegative, so the result is the finite sqrt value. -/
def getDist (e : MathEnv) (p q : Vec2) : ℚ :=
  e.sqrtq ((p.x - q.x) * (p.x - q.x) + (p.y - q.y) * (p.y - q.y))

/-- The five landmarks predictWebcam reads from the detector result. -/
structure Landmarks where
  wrist : Vec2
  thumbTip : Vec2
  indexTip : Vec2
  middleTip : Vec2
  middleMCP : Vec2

/-- Translation of the per-frame core of predictWebcam (part_000 lines 73-149):
from an optional detected hand and the stored previous palm center, produce the
(openness-flag, openness, bundle) update and the new previous center. The
no-hand branch emits the neutral bundle with openness 0.5 and clears the
previous center; the hand branch computes openness, pinch, rotation, velocity
(zero when there is no previous center) and the mirrored position. Returns
(bundle, openness, new previous center). -/
def handTrackFrame (e : MathEnv) (lm : Option Landmarks) (prev : Option Vec2) :
    GestureBundle × ℚ × Option Vec2 :=
  match lm with
  | some h =>
    let distIndex := getDist e h.wrist h.indexTip
    let distMiddle := getDist e h.wrist h.middleTip
    let distThumb := getDist e h.wrist h.thumbTip
    let avgDist := (distIndex + distMiddle + distThumb) / 3
    let openness := max 0 (min 1 ((avgDist - 1/5) * (5/2)))
    let pinchDist := getDist e h.thumbTip h.indexTip
    let isPinching := decide (pinchDist < 1/20)
    let dx := h.middleMCP.x - h.wrist.x
    let dy := h.middleMCP.y - h.wrist.y
    let rotv := e.atanq dy (-dx) - ratPi / 2
    let cx := (h.wrist.x + h.middleMCP.x) / 2
    let cy := (h.wrist.y + h.middleMCP.y) / 2
    let v : Vec2 :=
      match prev with
      | some p => ⟨(p.x - cx) * 20, (p.y - cy) * 20⟩
      | none => ⟨0, 0⟩
    (⟨v, pinchDist, rotv, isPinching, some ⟨1 - cx, cy⟩⟩, openness, some ⟨cx, cy⟩)
  | none => (neutralBundle, 1/2, none)

/-- Translation of the mouse fallback bundle (the App mousemove handler):
velocity from scaled pointer deltas, rotation from the horizontal pointer
ratio, pinch simulated by the primary button; the object literal has no
position field. -/
def mouseGesture (vx vy clientXRatio : ℚ) (buttonDown : Bool) : GestureBundle :=
  ⟨⟨vx * 20, vy * 20⟩, if buttonDown then 0 else 1, (clientXRatio - 1/2) * 1,
    buttonDown, none⟩

/- ---------------------------------------------------------------------------
Audio band extraction and expansion (src/unnamed/part_000, ParticleSystem
frame callback, lines 694-721 and 748-753).
--------------------------------------------------------------------------- -/

/-- Result of the audio data collection: the bass band scalar and the flag
recording that the silent-spectrum fallback was taken. -/
structure AudioOut where
  audioBass : ℚ
  usingSimulation : Bool
  deriving DecidableEq

/-- Translation of the audio data collection (lines 695-721): when audio is
active, sum the first 10 bins and the whole spectrum; if both are zero use the
time-based oscillator (sin of 8 times the elapsed time, passed here as its
value sinT8), otherwise the mean of the first 10 bins normalized by 255. -/
def collectAudio (hasAudio : Bool) (spec : List ℕ) (sinT8 : ℚ) : AudioOut :=
  if hasAudio = true then
    let bassSum := (spec.take 10).sum
    let totalSum := spec.sum
    if bassSum = 0 ∧ totalSum = 0 then
      { audioBass := (sinT8 + 1) * (1/5), usingSimulation := true }
    else
      { audioBass := ((bassSum : ℚ) / 10) / 255, usingSimulation := false }
  else { audioBass := 0, usingSimulation := false }

/-- Translation of the expansion computation (lines 748-753): baseExpansion =
0.2 + openVal * 2.8, plus audioBass * 1.5 when the visualizer is active, minus
the pinch gravity (1 - pinchDistance) * 5 when pinching with physics active,
floored at 0.01. Consumes only the bass scalar, no provenance flag. -/
def finalExpansionOf (isVisualizerActive : Bool) (audioBass openVal pinchDistance : ℚ)
    (isPinching isPhysicsActive : Bool) : ℚ :=
  let base := 1/5 + openVal * (14/5)
  let base2 := if isVisualizerActive = true then base + audioBass * (3/2) else base
  let gravity := if isPinching = true ∧ isPhysicsActive = true
    then (1 - pinchDistance) * 5 else 0
  max (1/100) (base2 - gravity)

/- ---------------------------------------------------------------------------
Shape generator (src/utils/shapes.ts, generateParticles).
--------------------------------------------------------------------------- -/

/-- The ShapeType enum (src/types.ts). -/
inductive ShapeTy
  | sphere
  | heart
  | flower
  | saturn
  | buddha
  | spiral
  | fireworks
  | gallery
  | musicPlayer
  deriving DecidableEq

/-- A JS double at the granularity the finiteness claim needs: a finite value
(exact rational; overflow to infinity is unreachable at the magnitudes of the
generator) or NaN / plus-or-minus Infinity. -/
inductive JsNum
  | fin : ℚ → JsNum
  | nan : JsNum
  | inf : JsNum
  | ninf : JsNum
  deriving DecidableEq

/-- JS division on doubles for the finite/finite case: division by zero gives
NaN (0/0) or a signed infinity. The non-finite operand cases are not exercised
by the generator (its operands are literals and loop counters). -/
def jdiv : JsNum → JsNum → JsNum
  | .fin a, .fin b =>
    if b = 0 then (if a = 0 then .nan else if 0 < a then .inf else .ninf)
    else .fin (a / b)
  | _, _ => .nan

/-- Math.floor: floors finite values, fixes NaN and the infinities. -/
def jfloor : JsNum → JsNum
  | .fin a => .fin (⌊a⌋ : ℚ)
  | x => x

/-- The JS < comparison on doubles: false whenever either side is NaN. -/
def jltB : JsNum → JsNum → Bool
  | .fin a, .fin b => decide (a < b)
  | .nan, _ => false
  | _, .nan => false
  | .fin _, .inf => true
  | .fin _, .ninf => false
  | .inf, _ => false
  | .ninf, .ninf => false
  | .ninf, _ => true

/-- Math.acos: finite on arguments in [-1, 1], NaN outside. -/
def jacos (e : MathEnv) (x : ℚ) : Option ℚ :=
  if -1 ≤ x ∧ x ≤ 1 then some (e.acosq x) else none

/-- Math.sqrt: finite on nonnegative arguments, NaN on negative ones. -/
def jsqrtO (e : MathEnv) (x : ℚ) : Option ℚ :=
  if 0 ≤ x then some (e.sqrtq x) else none

/-- Math.pow: finite when the base is nonnegative or the exponent is an
integer (the exponents used are 3, 2 and 1/3); NaN for a negative base with a
fractional exponent. -/
def jpow (e : MathEnv) (b p : ℚ) : Option ℚ :=
  if 0 ≤ b ∨ p.den = 1 then some (e.powq b p) else none

/-- Translation of one iteration of the generateParticles loop body
(shapes.ts lines 8-172) for index i: the computed (x, y, z) triple, or none if
any step produced NaN, together with the advanced Math.random stream position.
phi = acos(-1 + 2i/count) and theta = sqrt(count * PI) * phi are bound by the
branches that read them. In the Music equalizer branch the JS double division
i / particlesPerBar is computed in the JsNum model (division by zero when
count < 8 yields NaN or Infinity, so barIndex < numBars is then false and the
fallback cloud is taken); when the guard holds, particlesPerBar is at least 1
and the arithmetic is exact on naturals. -/
def particleAt (e : MathEnv) (ty : ShapeTy) (count i rc : ℕ) :
    Option (ℚ × ℚ × ℚ) × ℕ :=
  let phiO : Option ℚ := jacos e (-1 + (2 * (i : ℚ)) / (count : ℚ))
  let thetaO : Option ℚ := do
    let s ← jsqrtO e ((count : ℚ) * ratPi)
    let phi ← phiO
    pure (s * phi)
  match ty with
  | .sphere =>
    ((do
      let phi ← phiO
      let th ← thetaO
      pure (4 * e.sinq phi * e.cosq th, 4 * e.sinq phi * e.sinq th,
        4 * e.cosq phi)), rc)
  | .heart =>
    -- t and the unused u each consume a Math.random draw, then z a third
    let t := e.rand rc * ratPi * 2
    ((do
      let s3 ← jpow e (e.sinq t) 3
      pure ((5/2) * 16 * s3,
        (5/2) * (13 * e.cosq t - 5 * e.cosq (2 * t) - 2 * e.cosq (3 * t)
          - e.cosq (4 * t)),
        (e.rand (rc + 2) - 1/2) * 4 * e.sinq t)), rc + 3)
  | .flower =>
    ((do
      let th ← thetaO
      let r := 5 * e.cosq (4 * th)
      let p2 ← jpow e (r / 5) 2
      pure (r * e.cosq th, r * e.sinq th, (e.rand rc - 1/2) * 2 + p2 * 2)), rc + 1)
  | .saturn =>
    if e.rand rc > 2/5 then
      let angle := e.rand (rc + 1) * ratPi * 2
      let radius := 6 + e.rand (rc + 2) * 3
      let x := radius * e.cosq angle
      let z := radius * e.sinq angle
      let y := (e.rand (rc + 3) - 1/2) * (1/5)
      (some (x, y * e.cosq (2/5) - z * e.sinq (2/5),
        y * e.sinq (2/5) + z * e.cosq (2/5)), rc + 4)
    else
      ((do
        let phi ← phiO
        let th ← thetaO
        let y := 3 * e.sinq phi * e.sinq th
        let z := 3 * e.cosq phi
        pure (3 * e.sinq phi * e.cosq th, y * e.cosq (2/5) - z * e.sinq (2/5),
          y * e.sinq (2/5) + z * e.cosq (2/5))), rc + 1)
  | .buddha =>
    if e.rand rc < 1/5 then
      ((do
        let phi ← phiO
        let th ← thetaO
        pure ((4/5) * e.sinq phi * e.cosq th, 5/2 + (4/5) * e.sinq phi * e.sinq th,
          (4/5) * e.cosq phi)), rc + 1)
    else if e.rand rc < 1/2 then
      ((do
        let phi ← phiO
        let th ← thetaO
        pure ((3/2) * (6/5) * e.sinq phi * e.cosq th,
          1 + (3/2) * e.sinq phi * e.sinq th,
          (3/2) * (4/5) * e.cosq phi)), rc + 1)
    else
      let angle := e.rand (rc + 1) * ratPi * 2
      ((do
        let sq ← jsqrtO e (e.rand (rc + 2))
        let rad := (5/2) * sq
        let p2 ← jpow e (rad / 3) 2
        pure (rad * e.cosq angle,
          (-(3/2) + e.rand (rc + 3) * (3/2)) - p2,
          rad * e.sinq angle)), rc + 4)
  | .spiral =>
    (some (((i : ℚ) / (count : ℚ) * 8) * e.cosq ((i : ℚ) * (1/10)),
      ((i : ℚ) / (count : ℚ) - 1/2) * 10,
      ((i : ℚ) / (count : ℚ) * 8) * e.sinq ((i : ℚ) * (1/10))), rc)
  | .fireworks =>
    ((do
      let p ← jpow e (e.rand rc) (1/3)
      let phi ← phiO
      let th ← thetaO
      pure (p * 6 * e.sinq phi * e.cosq th, p * 6 * e.sinq phi * e.sinq th,
        p * 6 * e.cosq phi)), rc + 1)
  | .gallery =>
    ((do
      let phi ← phiO
      let th ← thetaO
      pure ((6 + e.rand rc * 4) * e.sinq phi * e.cosq th,
        (6 + e.rand rc * 4) * e.sinq phi * e.sinq th,
        (6 + e.rand rc * 4) * e.cosq phi)), rc + 1)
  | .musicPlayer =>
    let numBars : ℕ := 8
    let ppb : ℕ := count / numBars
    let barIndexJ := jfloor (jdiv (.fin (i : ℚ)) (.fin (ppb : ℚ)))
    if jltB barIndexJ (.fin ((numBars : ℕ) : ℚ)) = true then
      let barIndex : ℕ := i / ppb
      let particleInBarIndex : ℕ := i % ppb
      let normalizedHeight : ℚ := (particleInBarIndex : ℚ) / (ppb : ℚ)
      let spacing : ℚ := 5/2
      let totalWidth : ℚ := (numBars : ℚ) * spacing
      (some (-totalWidth / 2 + (barIndex : ℚ) * spacing + spacing * (1/2),
        -12 + normalizedHeight * 24,
        (e.rand rc - 1/2) * 2), rc + 1)
    else
      (some ((e.rand rc - 1/2) * 20, 10 + e.rand (rc + 1) * 5,
        (e.rand (rc + 2) - 1/2) * 10), rc + 3)

/-- A bounds-checked store into the positions array: none models an
out-of-range access. -/
def writeAt (l : List ℚ) (j : ℕ) (v : ℚ) : Option (List ℚ) :=
  if j < l.length then some (l.set j v) else none

/-- The generator loop: rem iterations left, current index i, current position
rc in the Math.random stream, and the positions array built so far. Each
iteration stores x, y, z at indices 3i, 3i+1, 3i+2. -/
def genLoop (e : MathEnv) (ty : ShapeTy) (count : ℕ) :
    ℕ → ℕ → ℕ → List ℚ → Option (List ℚ)
  | 0, _, _, acc => some acc
  | rem + 1, i, rc, acc =>
    match (particleAt e ty count i rc).1 with
    | none => none
    | some (x, y, z) => do
      let a1 ← writeAt acc (i * 3) x
      let a2 ← writeAt a1 (i * 3 + 1) y
      let a3 ← writeAt a2 (i * 3 + 2) z
      genLoop e ty count rem (i + 1) (particleAt e ty count i rc).2 a3

/-- Translation of generateParticles (shapes.ts lines 4-180): a zero-filled
array of count*3 values (new Float32Array(count * 3)), then the loop over all
indices. A some result means every value stayed finite and every array access
was in range. -/
def generateParticles (e : MathEnv) (ty : ShapeTy) (count : ℕ) : Option (List ℚ) :=
  genLoop e ty count count 0 0 (List.replicate (count * 3) 0)

/- ---------------------------------------------------------------------------
Expansion physics sequences (src/App.tsx handleHandUpdate and
src/unnamed/part_000 ParticleSystem frame callback, lines 748-753, 816-833),
specialised to openness input held at 1.0.
--------------------------------------------------------------------------- -/

/-- One update of the smoothed openness ref (App.tsx line 185):
cur + (target - cur) * 0.1. -/
def handOpennessStep (cur target : ℚ) : ℚ := cur + (target - cur) * (1/10)

/-- The smoothed openness over frames with the openness input held at 1.0,
starting from o0 (the App initializes the ref at 0.5). -/
def opennessSeq (o0 : ℚ) : ℕ → ℚ
  | 0 => o0
  | n + 1 => handOpennessStep (opennessSeq o0 n) 1

/-- The per-frame expansion factor with the visualizer inactive and no pinch:
finalExpansion = max(0.01, 0.2 + openness * 2.8). -/
def expansionSeq (o0 : ℚ) (n : ℕ) : ℚ :=
  finalExpansionOf false 0 (opennessSeq o0 n) 1 false true

/-- One coordinate of a sample under the per-frame update (lines 823-828) with
frame delta dl: target = b * expansion, noise = s n * 0.1 * expansion, and
cur += (target + noise - cur) * (2 * dl). The stream s models the values of
Math.sin(time + i) at the frame times. -/
def trackSeq (b dl : ℚ) (s : ℕ → ℚ) (o0 c0 : ℚ) : ℕ → ℚ
  | 0 => c0
  | n + 1 =>
    trackSeq b dl s o0 c0 n +
      (b * expansionSeq o0 n + s n * (1/10) * expansionSeq o0 n
        - trackSeq b dl s o0 c0 n) * (2 * dl)

/- ---------------------------------------------------------------------------
Theorems. Helper lemmas come first, then one theorem (plus witness or
counterexample) per claim.
--------------------------------------------------------------------------- -/

/-- Helper: a first call in the neutral initial state with a strong rightward
sample starts phase 1. -/
theorem waveStep_first_right (t : ℤ) (h : 0 ≤ t) :
    checkForWave waveInit t (7/10) = (⟨1, t, 0⟩, false) := by
  simp only [checkForWave, waveInit]
  rw [if_neg (by omega : ¬ (t < (0 : ℤ)))]
  split <;> norm_num

/-- Helper: a return swing to the left within the 600ms window while phase 1 is
armed fires the toggle and arms the cooldown. -/
theorem waveStep_return_fires (t now : ℤ) (hc : ¬ now < 0) (hg : ¬ now - t > 600) :
    checkForWave ⟨1, t, 0⟩ now (-(7/10)) = (⟨0, t, now + 1500⟩, true) := by
  simp only [checkForWave]
  rw [if_neg hc, if_neg hg]
  norm_num

/-- Helper: a leftward sample arriving more than 600ms after the armed swing
resets the phase and merely starts phase -1; nothing fires. -/
theorem waveStep_reset_left (t now : ℤ) (hc : ¬ now < 0) (hg : now - t > 600) :
    checkForWave ⟨1, t, 0⟩ now (-(7/10)) = (⟨-1, now, 0⟩, false) := by
  simp only [checkForWave]
  rw [if_neg hc, if_pos hg]
  norm_num

/-- Helper: any call during the cooldown window returns the state unchanged and
fires nothing. -/
theorem waveStep_blocked (p lt cd now : ℤ) (v : ℚ) (h : now < cd) :
    checkForWave ⟨p, lt, cd⟩ now v = (⟨p, lt, cd⟩, false) := by
  simp only [checkForWave]
  rw [if_pos (by simpa using h)]

/-- C2: starting from the initial wave-detector state, a velocity sample with
x = 0.7 followed within 600ms by a sample with x = -0.7 fires exactly one wave
toggle; the same two samples separated by more than 600ms fire zero events; and
after a wave event fires, a further qualifying swing pair arriving within the
1500ms cooldown fires zero additional events. -/
theorem c2_wave_events (t1 t2 u1 u2 g : ℤ) (h0 : 0 ≤ t1) (h12 : t1 ≤ t2) :
    (t2 - t1 ≤ 600 → (runWave waveInit [(t1, 7/10), (t2, -(7/10))]).2 = 1) ∧
    (600 < g → (runWave waveInit [(t1, 7/10), (t1 + g, -(7/10))]).2 = 0) ∧
    (t2 - t1 ≤ 600 → t2 < u1 → u1 ≤ u2 → u2 - t2 < 1500 →
      (runWave waveInit
        [(t1, 7/10), (t2, -(7/10)), (u1, 7/10), (u2, -(7/10))]).2 = 1) := by
  refine ⟨?_, ?_, ?_⟩
  · intro hle
    simp only [runWave, waveStep_first_right t1 h0,
      waveStep_return_fires t1 t2 (by omega) (by omega)]
    norm_num
  · intro hg
    simp only [runWave, waveStep_first_right t1 h0,
      waveStep_reset_left t1 (t1 + g) (by omega) (by omega)]
    norm_num
  · intro hle h2 h3 h4
    simp only [runWave, waveStep_first_right t1 h0,
      waveStep_return_fires t1 t2 (by omega) (by omega),
      waveStep_blocked 0 t1 (t2 + 1500) u1 (7/10) (by omega),
      waveStep_blocked 0 t1 (t2 + 1500) u2 (-(7/10)) (by omega)]
    norm_num

/-- C2 witness: the three scenarios at the concrete times 100/400 (in-window
pair), 100/800 (700ms gap) and a second pair at 500/900 inside the cooldown. -/
theorem c2_wave_events_witness :
    (runWave waveInit [(100, 7/10), (400, -(7/10))]).2 = 1 ∧
    (runWave waveInit [(100, 7/10), (800, -(7/10))]).2 = 0 ∧
    (runWave waveInit
      [(100, 7/10), (400, -(7/10)), (500, 7/10), (900, -(7/10))]).2 = 1 := by
  have h := c2_wave_events 100 400 500 900 700 (by norm_num) (by norm_num)
  refine ⟨h.1 (by norm_num), ?_, h.2.2 (by norm_num) (by norm_num) (by norm_num) (by norm_num)⟩
  have := h.2.1 (by norm_num)
  norm_num at this
  exact this

/-- Helper: in music control mode with zero velocity, a checkGestures frame
reduces to its play/pause section; seek, volume and skip leave everything
alone, and the end-of-frame edge refs are written. -/
theorem checkGestures_ctl_zero (inp : GestIn) (app : MusicState) (vol : ℚ)
    (det : DetSt) (hvx : inp.vx = 0) (hvy : inp.vy = 0) :
    checkGestures false true inp app vol det =
      ((sec2PlayPause false inp app det).1, vol,
        { (sec2PlayPause false inp app det).2.1 with
            wasPinching := inp.isPinching
            wasOpen := decide (inp.openness > 4/5) },
        (sec2PlayPause false inp app det).2.2) := by
  norm_num [checkGestures, sec3Skip, sec4Seek, sec5Volume, hvx, hvy]

/-- Helper: a rising pinch edge in control mode with strictly more than 1000ms
since the shared last action toggles the playing flag. -/
theorem sec2_pinchToggle_fires (inp : GestIn) (app : MusicState) (det : DetSt)
    (hp : inp.isPinching = true) (hw : det.wasPinching = false)
    (hgap : inp.now - det.lastActionTime > 1000) :
    sec2PlayPause false inp app det =
      ({ app with isPlaying := !app.isPlaying },
        { det with lastActionTime := inp.now },
        { noActs with pinchToggle := true }) := by
  simp [sec2PlayPause, hp, hw, hgap]

/-- Helper: without a rising edge inside the 1000ms window the control-mode
play/pause section is inert. -/
theorem sec2_pinchToggle_inert (inp : GestIn) (app : MusicState) (det : DetSt)
    (h : ¬ (inp.isPinching = true ∧ det.wasPinching = false ∧
      inp.now - det.lastActionTime > 1000)) :
    sec2PlayPause false inp app det = (app, det, noActs) := by
  simp only [sec2PlayPause, Bool.false_eq_true, if_false]
  rw [if_neg h]

/-- C3 counterexample: the claim says a rising edge of isPinching occurring at
least 1000ms after the last action flips isPlaying, but at a gap of exactly
1000ms the guard now - lastActionTime > 1000 is false and isPlaying stays
false: checkGestures uses a strict comparison. -/
theorem c3_pinch_boundary_counterexample :
    ((1000 : ℤ) - 0 ≥ 1000) ∧
    (checkGestures false true ⟨1000, 0, 0, true, 0, 1/2⟩
      ⟨[0, 1, 2], 0, false, 1/2⟩ 0 ⟨0, false, true⟩).1.isPlaying = false := by
  refine ⟨by norm_num, ?_⟩
  rw [checkGestures_ctl_zero _ _ _ _ rfl rfl,
    sec2_pinchToggle_inert _ _ _ (by norm_num)]

/-- C3 (amended): in music control mode, a rising edge of isPinching strictly
more than 1000ms after the detector instance's last action flips isPlaying,
and after a release frame 100ms later, a second rising edge 200ms after the
first leaves isPlaying unchanged. -/
theorem c3_pinch_toggle (t : ℤ) (app : MusicState) (vol : ℚ) (det : DetSt)
    (hw : det.wasPinching = false) (hgap : t - det.lastActionTime > 1000) :
    ((checkGestures false true ⟨t, 0, 0, true, 0, 1/2⟩ app vol det).1.isPlaying
      = !app.isPlaying) ∧
    ((runGestures false true (app, vol, det)
        [⟨t, 0, 0, true, 0, 1/2⟩, ⟨t + 100, 0, 0, false, 0, 1/2⟩,
          ⟨t + 200, 0, 0, true, 0, 1/2⟩]).1.1.isPlaying = !app.isPlaying) := by
  have e1 : checkGestures false true ⟨t, 0, 0, true, 0, 1/2⟩ app vol det =
      ({ app with isPlaying := !app.isPlaying }, vol,
        ⟨t, true, false⟩, ⟨false, false, false, true, false, false⟩) := by
    rw [checkGestures_ctl_zero _ _ _ _ rfl rfl,
      sec2_pinchToggle_fires _ _ _ rfl hw hgap]
    norm_num [noActs]
  have e2 : checkGestures false true ⟨t + 100, 0, 0, false, 0, 1/2⟩
      { app with isPlaying := !app.isPlaying } vol ⟨t, true, false⟩ =
      ({ app with isPlaying := !app.isPlaying }, vol,
        ⟨t, false, false⟩, noActs) := by
    rw [checkGestures_ctl_zero _ _ _ _ rfl rfl,
      sec2_pinchToggle_inert _ _ _ (by simp)]
    norm_num
  have e3 : checkGestures false true ⟨t + 200, 0, 0, true, 0, 1/2⟩
      { app with isPlaying := !app.isPlaying } vol ⟨t, false, false⟩ =
      ({ app with isPlaying := !app.isPlaying }, vol,
        ⟨t, true, false⟩, noActs) := by
    rw [checkGestures_ctl_zero _ _ _ _ rfl rfl,
      sec2_pinchToggle_inert _ _ _ (by simp)]
    norm_num
  constructor
  · rw [e1]
  · simp only [runGestures, e1, e2, e3]

/-- C3 witness: the amended toggle behaviour at time 2000 from a fresh
detector state (and the full three-frame trace). -/
theorem c3_pinch_toggle_witness :
    ((checkGestures false true ⟨2000, 0, 0, true, 0, 1/2⟩
      ⟨[0, 1, 2], 0, false, 1/2⟩ 0 ⟨0, false, true⟩).1.isPlaying = !false) ∧
    ((runGestures false true (⟨[0, 1, 2], 0, false, 1/2⟩, 0, ⟨0, false, true⟩)
        [⟨2000, 0, 0, true, 0, 1/2⟩, ⟨2000 + 100, 0, 0, false, 0, 1/2⟩,
          ⟨2000 + 200, 0, 0, true, 0, 1/2⟩]).1.1.isPlaying = !false) :=
  c3_pinch_toggle 2000 ⟨[0, 1, 2], 0, false, 1/2⟩ 0 ⟨0, false, true⟩
    rfl (by norm_num)

/-- Helper: characterization of the play/pause section. It never fires throw,
next or prev; whenever it fires one of its three actions it writes the shared
timestamp and its 500ms guard held (1000ms for the pinch toggle); and when it
fires nothing it is the identity. -/
theorem sec2_char (tmpl : Bool) (inp : GestIn) (app : MusicState) (det : DetSt) :
    ((sec2PlayPause tmpl inp app det).2.2.throwRemove = false ∧
      (sec2PlayPause tmpl inp app det).2.2.nextTrack = false ∧
      (sec2PlayPause tmpl inp app det).2.2.prevTrack = false) ∧
    (((sec2PlayPause tmpl inp app det).2.2.playOpen = true ∨
      (sec2PlayPause tmpl inp app det).2.2.pauseFist = true ∨
      (sec2PlayPause tmpl inp app det).2.2.pinchToggle = true) →
      ((sec2PlayPause tmpl inp app det).2.1.lastActionTime = inp.now ∧
        inp.now - det.lastActionTime > 500)) ∧
    ((sec2PlayPause tmpl inp app det).2.2.pinchToggle = true →
      inp.now - det.lastActionTime > 1000) ∧
    (((sec2PlayPause tmpl inp app det).2.2.playOpen = false ∧
      (sec2PlayPause tmpl inp app det).2.2.pauseFist = false ∧
      (sec2PlayPause tmpl inp app det).2.2.pinchToggle = false) →
      sec2PlayPause tmpl inp app det = (app, det, noActs)) := by
  unfold sec2PlayPause
  split_ifs <;> simp_all [noActs] <;> omega

/-- Helper: characterization of the skip section when handed an action record
with the swipe flags clear. It passes the other flags through; when it fires a
swipe it writes the shared timestamp and its 800ms guard held; otherwise it is
the identity. -/
theorem sec3_char (inp : GestIn) (app : MusicState) (det : DetSt) (acts : Acts)
    (hn : acts.nextTrack = false) (hp : acts.prevTrack = false) :
    ((sec3Skip inp app det acts).2.2.throwRemove = acts.throwRemove ∧
      (sec3Skip inp app det acts).2.2.playOpen = acts.playOpen ∧
      (sec3Skip inp app det acts).2.2.pauseFist = acts.pauseFist ∧
      (sec3Skip inp app det acts).2.2.pinchToggle = acts.pinchToggle) ∧
    (((sec3Skip inp app det acts).2.2.nextTrack = true ∨
      (sec3Skip inp app det acts).2.2.prevTrack = true) →
      ((sec3Skip inp app det acts).2.1.lastActionTime = inp.now ∧
        inp.now - det.lastActionTime > 800)) ∧
    (((sec3Skip inp app det acts).2.2.nextTrack = false ∧
      (sec3Skip inp app det acts).2.2.prevTrack = false) →
      sec3Skip inp app det acts = (app, det, acts)) := by
  unfold sec3Skip
  split_ifs <;> simp_all

/-- Helper: the non-throw unfolding of checkGestures into its sections. -/
theorem checkGestures_noThrow (tmpl ctl : Bool) (inp : GestIn) (app : MusicState)
    (tm : ℚ) (det : DetSt)
    (hthrow : ¬ (tmpl = true ∧ inp.isPinching = true ∧
      inp.vx * inp.vx + inp.vy * inp.vy > 9/4 ∧ inp.now - det.lastActionTime > 1500)) :
    checkGestures tmpl ctl inp app tm det =
      (sec5Volume tmpl ctl inp
          (sec3Skip inp (sec2PlayPause tmpl inp app det).1
            (sec2PlayPause tmpl inp app det).2.1 (sec2PlayPause tmpl inp app det).2.2).1,
        sec4Seek tmpl inp tm,
        { (sec3Skip inp (sec2PlayPause tmpl inp app det).1
            (sec2PlayPause tmpl inp app det).2.1
            (sec2PlayPause tmpl inp app det).2.2).2.1 with
            wasPinching := inp.isPinching
            wasOpen := decide (inp.openness > 4/5) },
        (sec3Skip inp (sec2PlayPause tmpl inp app det).1
          (sec2PlayPause tmpl inp app det).2.1
          (sec2PlayPause tmpl inp app det).2.2).2.2) := by
  unfold checkGestures
  rw [if_neg hthrow]

/-- Helper: the throw unfolding of checkGestures. -/
theorem checkGestures_throw (tmpl ctl : Bool) (inp : GestIn) (app : MusicState)
    (tm : ℚ) (det : DetSt)
    (hthrow : tmpl = true ∧ inp.isPinching = true ∧
      inp.vx * inp.vx + inp.vy * inp.vy > 9/4 ∧ inp.now - det.lastActionTime > 1500) :
    checkGestures tmpl ctl inp app tm det =
      (removeCurrent app, tm, { det with lastActionTime := inp.now },
        { noActs with throwRemove := true }) := by
  unfold checkGestures
  rw [if_pos hthrow]


/-- C6: every edge-triggered action of one checkGestures detector instance
(throw-remove, openness play/pause, pinch toggle, swipe next/prev) measures its
cooldown from the single shared lastActionTime and, when it fires, overwrites
that shared timestamp with the current time, resetting the window of all the
others; when no discrete action fires (in particular on frames where only the
continuous seek or volume mappings act) the timestamp is untouched. -/
theorem c6_shared_last_action (tmpl ctl : Bool) (inp : GestIn) (app : MusicState)
    (tm : ℚ) (det : DetSt) :
    ((checkGestures tmpl ctl inp app tm det).2.2.2.some = true →
      (checkGestures tmpl ctl inp app tm det).2.2.1.lastActionTime = inp.now) ∧
    ((checkGestures tmpl ctl inp app tm det).2.2.2.some = false →
      (checkGestures tmpl ctl inp app tm det).2.2.1.lastActionTime =
        det.lastActionTime) ∧
    ((checkGestures tmpl ctl inp app tm det).2.2.2.throwRemove = true →
      inp.now - det.lastActionTime > 1500) ∧
    (((checkGestures tmpl ctl inp app tm det).2.2.2.playOpen = true ∨
      (checkGestures tmpl ctl inp app tm det).2.2.2.pauseFist = true) →
      inp.now - det.lastActionTime > 500) ∧
    ((checkGestures tmpl ctl inp app tm det).2.2.2.pinchToggle = true →
      inp.now - det.lastActionTime > 1000) ∧
    (((checkGestures tmpl ctl inp app tm det).2.2.2.nextTrack = true ∨
      (checkGestures tmpl ctl inp app tm det).2.2.2.prevTrack = true) →
      inp.now - det.lastActionTime > 800) := by
  by_cases hthrow : (tmpl = true ∧ inp.isPinching = true ∧
      inp.vx * inp.vx + inp.vy * inp.vy > 9/4 ∧ inp.now - det.lastActionTime > 1500)
  · rw [checkGestures_throw tmpl ctl inp app tm det hthrow]
    exact ⟨fun _ => rfl, by simp [Acts.some, noActs], fun _ => hthrow.2.2.2,
      by simp [noActs], by simp [noActs], by simp [noActs]⟩
  · rw [checkGestures_noThrow tmpl ctl inp app tm det hthrow]
    obtain ⟨⟨s2t, s2n, s2p⟩, s2fire, s2pinch, s2id⟩ := sec2_char tmpl inp app det
    obtain ⟨⟨s3t, s3o, s3f, s3g⟩, s3fire, s3id⟩ :=
      sec3_char inp (sec2PlayPause tmpl inp app det).1
        (sec2PlayPause tmpl inp app det).2.1 (sec2PlayPause tmpl inp app det).2.2 s2n s2p
    dsimp only
    by_cases h2 : ((sec2PlayPause tmpl inp app det).2.2.playOpen = true ∨
        (sec2PlayPause tmpl inp app det).2.2.pauseFist = true ∨
        (sec2PlayPause tmpl inp app det).2.2.pinchToggle = true)
    · -- the play/pause section fired, stamping the shared time; the swipe
      -- section then sees a zero gap and cannot fire
      obtain ⟨h2last, h2gap⟩ := s2fire h2
      have hnx : (sec3Skip inp (sec2PlayPause tmpl inp app det).1
          (sec2PlayPause tmpl inp app det).2.1
          (sec2PlayPause tmpl inp app det).2.2).2.2.nextTrack = false := by
        cases hb : (sec3Skip inp (sec2PlayPause tmpl inp app det).1
            (sec2PlayPause tmpl inp app det).2.1
            (sec2PlayPause tmpl inp app det).2.2).2.2.nextTrack
        · rfl
        · obtain ⟨_, hgap⟩ := s3fire (Or.inl hb)
          rw [h2last] at hgap
          omega
      have hpx : (sec3Skip inp (sec2PlayPause tmpl inp app det).1
          (sec2PlayPause tmpl inp app det).2.1
          (sec2PlayPause tmpl inp app det).2.2).2.2.prevTrack = false := by
        cases hb : (sec3Skip inp (sec2PlayPause tmpl inp app det).1
            (sec2PlayPause tmpl inp app det).2.1
            (sec2PlayPause tmpl inp app det).2.2).2.2.prevTrack
        · rfl
        · obtain ⟨_, hgap⟩ := s3fire (Or.inr hb)
          rw [h2last] at hgap
          omega
      rw [s3id ⟨hnx, hpx⟩]
      dsimp only
      refine ⟨fun _ => h2last, ?_, ?_, fun _ => h2gap, s2pinch, ?_⟩
      · intro hnone
        exfalso
        rcases h2 with h | h | h <;> simp [Acts.some, h] at hnone
      · intro ht
        rw [s2t] at ht
        exact absurd ht (by simp)
      · intro hnp
        exfalso
        rcases hnp with h | h
        · rw [s2n] at h
          exact absurd h (by simp)
        · rw [s2p] at h
          exact absurd h (by simp)
    · have e2 : sec2PlayPause tmpl inp app det = (app, det, noActs) := by
        apply s2id
        push_neg at h2
        exact ⟨Bool.eq_false_iff.mpr h2.1, Bool.eq_false_iff.mpr h2.2.1,
          Bool.eq_false_iff.mpr h2.2.2⟩
      rw [e2] at s3t s3o s3f s3g s3fire s3id ⊢
      dsimp only at s3t s3o s3f s3g s3fire s3id ⊢
      by_cases h3 : ((sec3Skip inp app det noActs).2.2.nextTrack = true ∨
          (sec3Skip inp app det noActs).2.2.prevTrack = true)
      · obtain ⟨h3last, h3gap⟩ := s3fire h3
        refine ⟨fun _ => h3last, ?_, ?_, ?_, ?_, fun _ => h3gap⟩
        · intro hnone
          exfalso
          rcases h3 with h | h <;> simp [Acts.some, h] at hnone
        · intro ht
          rw [s3t] at ht
          exact absurd ht (by simp [noActs])
        · intro hof
          exfalso
          rcases hof with h | h
          · rw [s3o] at h
            exact absurd h (by simp [noActs])
          · rw [s3f] at h
            exact absurd h (by simp [noActs])
        · intro hg
          rw [s3g] at hg
          exact absurd hg (by simp [noActs])
      · have hnx : (sec3Skip inp app det noActs).2.2.nextTrack = false :=
          Bool.eq_false_iff.mpr (fun h => h3 (Or.inl h))
        have hpx : (sec3Skip inp app det noActs).2.2.prevTrack = false :=
          Bool.eq_false_iff.mpr (fun h => h3 (Or.inr h))
        rw [s3id ⟨hnx, hpx⟩]
        dsimp only
        refine ⟨?_, fun _ => rfl, ?_, ?_, ?_, ?_⟩
        · intro hs
          exact absurd hs (by simp [Acts.some, noActs])
        · intro h
          exact absurd h (by simp [noActs])
        · intro h
          rcases h with h | h <;> exact absurd h (by simp [noActs])
        · intro h
          exact absurd h (by simp [noActs])
        · intro h
          rcases h with h | h <;> exact absurd h (by simp [noActs])

/-- C6 witness: on a concrete throw frame (pinch held, speed 2, 2000ms since
the last action) the shared timestamp is stamped with the frame time. -/
theorem c6_shared_last_action_witness :
    (checkGestures true true ⟨2000, 2, 0, true, 0, 1/2⟩ ⟨[0, 1, 2], 0, false, 1/2⟩ 0
      ⟨0, false, false⟩).2.2.1.lastActionTime = 2000 := by
  have h := c6_shared_last_action true true ⟨2000, 2, 0, true, 0, 1/2⟩
    ⟨[0, 1, 2], 0, false, 1/2⟩ 0 ⟨0, false, false⟩
  apply h.1
  rw [checkGestures_throw true true ⟨2000, 2, 0, true, 0, 1/2⟩ ⟨[0, 1, 2], 0, false, 1/2⟩ 0
    ⟨0, false, false⟩ ⟨rfl, rfl, by norm_num, by norm_num⟩]
  rfl

/-- Helper: the volume section never touches the playing flag, track list or
index. -/
theorem sec5_fields (tmpl ctl : Bool) (inp : GestIn) (app : MusicState) :
    (sec5Volume tmpl ctl inp app).isPlaying = app.isPlaying ∧
    (sec5Volume tmpl ctl inp app).audioTracks = app.audioTracks ∧
    (sec5Volume tmpl ctl inp app).currentTrackIndex = app.currentTrackIndex := by
  unfold sec5Volume
  split_ifs <;> simp

/-- Helper: the skip section is inert when the horizontal velocity is inside
the swipe thresholds. -/
theorem sec3_slow (inp : GestIn) (app : MusicState) (det : DetSt) (acts : Acts)
    (h1 : ¬ inp.vx > 1/2) (h2 : ¬ inp.vx < -(1/2)) :
    sec3Skip inp app det acts = (app, det, acts) := by
  unfold sec3Skip
  split_ifs <;> simp_all

/-- Helper: the skip section is inert right after the shared timestamp was
stamped with the current time. -/
theorem sec3_stamped (inp : GestIn) (app : MusicState) (det : DetSt) (acts : Acts)
    (h : ¬ inp.now - det.lastActionTime > 800) :
    sec3Skip inp app det acts = (app, det, acts) := by
  unfold sec3Skip
  rw [if_neg h]

/-- Helper: an open palm (openness > 0.8) while paused, with more than 500ms
since the shared last action, fires the explicit play action. -/
theorem sec2_playOpen_fires (inp : GestIn) (app : MusicState) (det : DetSt)
    (ho : inp.openness > 4/5) (hp : app.isPlaying = false)
    (hg : inp.now - det.lastActionTime > 500) :
    sec2PlayPause true inp app det =
      ({ app with isPlaying := true }, { det with lastActionTime := inp.now },
        ⟨false, true, false, false, false, false⟩) := by
  unfold sec2PlayPause
  rw [if_pos rfl, if_pos ⟨ho, hp, hg⟩]
  rfl

/-- Helper: a fist (openness < 0.2) while playing, with more than 500ms since
the shared last action, fires the explicit pause action. -/
theorem sec2_pauseFist_fires (inp : GestIn) (app : MusicState) (det : DetSt)
    (ho : inp.openness < 1/5) (hp : app.isPlaying = true)
    (hg : inp.now - det.lastActionTime > 500) :
    sec2PlayPause true inp app det =
      ({ app with isPlaying := false }, { det with lastActionTime := inp.now },
        ⟨false, false, true, false, false, false⟩) := by
  unfold sec2PlayPause
  rw [if_pos rfl, if_neg (by rintro ⟨h1, h2, _⟩; rw [hp] at h2; exact absurd h2 (by simp)),
    if_pos ⟨ho, hp, hg⟩]
  rfl

/-- Helper: counting play actions distributes over the head of an action
list. -/
theorem countPlay_cons (a : Acts) (l : List Acts) :
    countPlay (a :: l) = (if a.playOpen = true then 1 else 0) + countPlay l := by
  simp only [countPlay, List.filter_cons]
  split_ifs <;> simp_all [Nat.add_comm]

/-- Helper: one template-mode frame with the palm held open (openness > 0.8),
no pinch and zero velocity either fires the play action (when paused and past
the 500ms window) or leaves the playing flag unchanged; when already playing it
can never fire the play action again. -/
theorem held_open_step (ctl : Bool) (inp : GestIn) (app : MusicState) (tm : ℚ)
    (det : DetSt) (ho : inp.openness > 4/5) (hp : inp.isPinching = false)
    (hvx : inp.vx = 0) (hvy : inp.vy = 0) :
    (app.isPlaying = true →
      ((checkGestures true ctl inp app tm det).1.isPlaying = true ∧
        (checkGestures true ctl inp app tm det).2.2.2.playOpen = false)) ∧
    (app.isPlaying = false →
      (((checkGestures true ctl inp app tm det).2.2.2.playOpen = true ∧
        (checkGestures true ctl inp app tm det).1.isPlaying = true) ∨
       ((checkGestures true ctl inp app tm det).2.2.2.playOpen = false ∧
        (checkGestures true ctl inp app tm det).1.isPlaying = false))) := by
  have hthrow : ¬ (true = true ∧ inp.isPinching = true ∧
      inp.vx * inp.vx + inp.vy * inp.vy > 9/4 ∧ inp.now - det.lastActionTime > 1500) := by
    rintro ⟨_, hpin, _⟩
    rw [hp] at hpin
    exact absurd hpin (by simp)
  rw [checkGestures_noThrow true ctl inp app tm det hthrow]
  dsimp only
  constructor
  · intro hplay
    have e2 : sec2PlayPause true inp app det = (app, det, noActs) := by
      unfold sec2PlayPause
      rw [if_pos rfl,
        if_neg (by rintro ⟨_, hf, _⟩; rw [hplay] at hf; exact absurd hf (by simp)),
        if_neg (by rintro ⟨hlt, _, _⟩; linarith)]
    rw [e2]
    dsimp only
    rw [sec3_slow inp app det noActs (by rw [hvx]; norm_num) (by rw [hvx]; norm_num)]
    dsimp only
    exact ⟨(sec5_fields true ctl inp app).1.trans hplay, rfl⟩
  · intro hstop
    by_cases hg : inp.now - det.lastActionTime > 500
    · left
      rw [sec2_playOpen_fires inp app det ho hstop hg]
      dsimp only
      rw [sec3_stamped inp { app with isPlaying := true }
        { det with lastActionTime := inp.now } ⟨false, true, false, false, false, false⟩
        (by dsimp only; omega)]
      dsimp only
      exact ⟨rfl, (sec5_fields true ctl inp { app with isPlaying := true }).1⟩
    · right
      have e2 : sec2PlayPause true inp app det = (app, det, noActs) := by
        unfold sec2PlayPause
        rw [if_pos rfl, if_neg (by rintro ⟨_, _, hgg⟩; exact hg hgg),
          if_neg (by rintro ⟨hlt, _, _⟩; linarith)]
      rw [e2]
      dsimp only
      rw [sec3_slow inp app det noActs (by rw [hvx]; norm_num) (by rw [hvx]; norm_num)]
      dsimp only
      exact ⟨rfl, (sec5_fields true ctl inp app).1.trans hstop⟩

/-- Helper: over any run of frames with the palm held open, no pinch and zero
velocity, the number of play actions fired is at most one (zero when already
playing): the play action latches the playing flag, which then blocks it. -/
theorem held_open_count (ctl : Bool) (inps : List GestIn) :
    ∀ w : MusicState × ℚ × DetSt,
      (∀ i ∈ inps, i.openness > 4/5 ∧ i.isPinching = false ∧ i.vx = 0 ∧ i.vy = 0) →
      countPlay (runGestures true ctl w inps).2 ≤
        (if w.1.isPlaying = true then 0 else 1) := by
  induction inps with
  | nil =>
    intro w _
    simp [runGestures, countPlay]
  | cons i rest ih =>
    intro w h
    obtain ⟨ho, hp, hvx, hvy⟩ := h i (List.mem_cons_self _ _)
    have hrest := fun j hj => h j (List.mem_cons_of_mem _ hj)
    obtain ⟨hT, hF⟩ := held_open_step ctl i w.1 w.2.1 w.2.2 ho hp hvx hvy
    have hrec := ih ((checkGestures true ctl i w.1 w.2.1 w.2.2).1,
      (checkGestures true ctl i w.1 w.2.1 w.2.2).2.1,
      (checkGestures true ctl i w.1 w.2.1 w.2.2).2.2.1) hrest
    simp only [runGestures] at hrec ⊢
    rw [countPlay_cons]
    by_cases hw : w.1.isPlaying = true
    · obtain ⟨hnew, hnop⟩ := hT hw
      rw [if_pos hw, hnop, if_neg (by simp)]
      rw [if_pos hnew] at hrec
      omega
    · have hw2 : w.1.isPlaying = false := by
        revert hw
        cases w.1.isPlaying <;> simp
      rw [if_neg hw]
      rcases hF hw2 with ⟨hop, hnew⟩ | ⟨hop, hnew⟩
      · rw [hop, if_pos rfl]
        rw [if_pos hnew] at hrec
        omega
      · rw [hop, if_neg (by simp)]
        rw [if_neg (by rw [hnew]; simp)] at hrec
        omega

/-- C7: in the music-template gesture detector, openness crossing above 0.8
while paused fires the explicit play action and openness crossing below 0.2
while playing fires the explicit pause action; both are guarded by strictly
more than 500ms from the shared last action (so consecutive openness actions
are at least 500ms apart); and the trigger is edge-like: holding the palm open
across any number of frames fires the play action at most once. -/
theorem c7_openness_edge (ctl : Bool) (inp : GestIn) (app : MusicState) (tm : ℚ)
    (det : DetSt) (w : MusicState × ℚ × DetSt) (inps : List GestIn) :
    (inp.openness > 4/5 → app.isPlaying = false →
      inp.now - det.lastActionTime > 500 → inp.isPinching = false →
      ((checkGestures true ctl inp app tm det).1.isPlaying = true ∧
        (checkGestures true ctl inp app tm det).2.2.2.playOpen = true ∧
        (checkGestures true ctl inp app tm det).2.2.1.lastActionTime = inp.now)) ∧
    (inp.openness < 1/5 → app.isPlaying = true →
      inp.now - det.lastActionTime > 500 → inp.isPinching = false →
      ((checkGestures true ctl inp app tm det).1.isPlaying = false ∧
        (checkGestures true ctl inp app tm det).2.2.2.pauseFist = true ∧
        (checkGestures true ctl inp app tm det).2.2.1.lastActionTime = inp.now)) ∧
    (((checkGestures true ctl inp app tm det).2.2.2.playOpen = true ∨
      (checkGestures true ctl inp app tm det).2.2.2.pauseFist = true) →
      inp.now - det.lastActionTime > 500) ∧
    ((∀ i ∈ inps, i.openness > 4/5 ∧ i.isPinching = false ∧ i.vx = 0 ∧ i.vy = 0) →
      countPlay (runGestures true ctl w inps).2 ≤ 1) := by
  refine ⟨?_, ?_, ?_, ?_⟩
  · intro ho hp hg hpk
    have hthrow : ¬ (true = true ∧ inp.isPinching = true ∧
        inp.vx * inp.vx + inp.vy * inp.vy > 9/4 ∧
        inp.now - det.lastActionTime > 1500) := by
      rintro ⟨_, hpin, _⟩
      rw [hpk] at hpin
      exact absurd hpin (by simp)
    rw [checkGestures_noThrow true ctl inp app tm det hthrow]
    dsimp only
    rw [sec2_playOpen_fires inp app det ho hp hg]
    dsimp only
    rw [sec3_stamped inp { app with isPlaying := true }
      { det with lastActionTime := inp.now } ⟨false, true, false, false, false, false⟩
      (by dsimp only; omega)]
    dsimp only
    exact ⟨(sec5_fields true ctl inp { app with isPlaying := true }).1, rfl, rfl⟩
  · intro ho hp hg hpk
    have hthrow : ¬ (true = true ∧ inp.isPinching = true ∧
        inp.vx * inp.vx + inp.vy * inp.vy > 9/4 ∧
        inp.now - det.lastActionTime > 1500) := by
      rintro ⟨_, hpin, _⟩
      rw [hpk] at hpin
      exact absurd hpin (by simp)
    rw [checkGestures_noThrow true ctl inp app tm det hthrow]
    dsimp only
    rw [sec2_pauseFist_fires inp app det ho hp hg]
    dsimp only
    rw [sec3_stamped inp { app with isPlaying := false }
      { det with lastActionTime := inp.now } ⟨false, false, true, false, false, false⟩
      (by dsimp only; omega)]
    dsimp only
    exact ⟨(sec5_fields true ctl inp { app with isPlaying := false }).1, rfl, rfl⟩
  · intro hof
    by_cases hthrow : (true = true ∧ inp.isPinching = true ∧
        inp.vx * inp.vx + inp.vy * inp.vy > 9/4 ∧ inp.now - det.lastActionTime > 1500)
    · have := hthrow.2.2.2
      omega
    · rw [checkGestures_noThrow true ctl inp app tm det hthrow] at hof
      dsimp only at hof
      obtain ⟨⟨s2t, s2n, s2p⟩, s2fire, _, _⟩ := sec2_char true inp app det
      obtain ⟨⟨_, s3o, s3f, _⟩, _, _⟩ :=
        sec3_char inp (sec2PlayPause true inp app det).1
          (sec2PlayPause true inp app det).2.1 (sec2PlayPause true inp app det).2.2 s2n s2p
      rcases hof with h | h
      · rw [s3o] at h
        exact (s2fire (Or.inl h)).2
      · rw [s3f] at h
        exact (s2fire (Or.inr (Or.inl h))).2
  · intro hall
    have h := held_open_count ctl inps w hall
    have : (if w.1.isPlaying = true then 0 else 1) ≤ 1 := by
      split_ifs <;> norm_num
    omega

/-- C7 witness: an open palm (openness 0.9) at time 1000 from a paused fresh
state plays, and holding it over three frames fires at most one play action. -/
theorem c7_openness_edge_witness :
    ((checkGestures true true ⟨1000, 0, 0, false, 0, 9/10⟩ ⟨[0, 1], 0, false, 1/2⟩ 0
      ⟨0, false, false⟩).1.isPlaying = true) ∧
    (countPlay (runGestures true true (⟨[0, 1], 0, false, 1/2⟩, 0, ⟨0, false, false⟩)
      [⟨1000, 0, 0, false, 0, 9/10⟩, ⟨1016, 0, 0, false, 0, 9/10⟩,
        ⟨1032, 0, 0, false, 0, 9/10⟩]).2 ≤ 1) := by
  have h := c7_openness_edge true ⟨1000, 0, 0, false, 0, 9/10⟩ ⟨[0, 1], 0, false, 1/2⟩ 0
    ⟨0, false, false⟩ (⟨[0, 1], 0, false, 1/2⟩, 0, ⟨0, false, false⟩)
    [⟨1000, 0, 0, false, 0, 9/10⟩, ⟨1016, 0, 0, false, 0, 9/10⟩,
      ⟨1032, 0, 0, false, 0, 9/10⟩]
  exact ⟨(h.1 (by norm_num) rfl (by norm_num) rfl).1,
    h.2.2.2 (by intro i hi; fin_cases hi <;> exact ⟨by norm_num, rfl, rfl, rfl⟩)⟩

/-- Helper: filtering an index-enumerated list by an index smaller than every
enumerated index keeps everything. -/
theorem enumFrom_filter_ne_small {α : Type} (l : List α) (n i : ℕ) (h : i < n) :
    ((List.enumFrom n l).filter (fun p => p.1 != i)).map Prod.snd = l := by
  induction l generalizing n with
  | nil => rfl
  | cons a tl ih =>
    have hne : ((n, a).1 != i) = true := by
      simp only [bne_iff_ne]
      omega
    simp only [List.enumFrom, List.filter_cons, hne, if_true, List.map_cons]
    rw [ih (n + 1) (by omega)]

/-- Helper: the JS idiom list.filter((unused, k) => k !== n + j) over the
enumeration of the list starting at index n removes exactly the element at
offset j. -/
theorem enumFrom_filter_eraseIdx {α : Type} (l : List α) (n j : ℕ) :
    ((List.enumFrom n l).filter (fun p => p.1 != (n + j))).map Prod.snd =
      l.eraseIdx j := by
  induction l generalizing n j with
  | nil => rfl
  | cons a tl ih =>
    cases j with
    | zero =>
      have hd : ((n, a).1 != (n + 0)) = false := by simp
      simp only [List.enumFrom, List.filter_cons, hd, if_false, List.eraseIdx]
      exact enumFrom_filter_ne_small tl (n + 1) (n + 0) (by omega)
    | succ j =>
      have hd : ((n, a).1 != (n + (j + 1))) = true := by
        simp only [bne_iff_ne]
        omega
      simp only [List.enumFrom, List.filter_cons, hd, if_true, List.map_cons,
        List.eraseIdx]
      rw [show n + (j + 1) = (n + 1) + j from by omega, ih (n + 1) j]

/-- Helper: removeCurrent rewritten through eraseIdx: the filter over the
enumerated track list drops exactly the current index. -/
theorem removeCurrent_eq (app : MusicState) :
    removeCurrent app =
      if app.audioTracks.length ≤ 1 then app
      else
        { app with
          audioTracks := app.audioTracks.eraseIdx app.currentTrackIndex
          currentTrackIndex := app.currentTrackIndex %
            (app.audioTracks.eraseIdx app.currentTrackIndex).length
          isPlaying := true } := by
  unfold removeCurrent
  split_ifs with h
  · rfl
  · have e : (app.audioTracks.enum.filter
        (fun p => p.1 != app.currentTrackIndex)).map Prod.snd =
        app.audioTracks.eraseIdx app.currentTrackIndex := by
      have := enumFrom_filter_eraseIdx app.audioTracks 0 app.currentTrackIndex
      simpa [List.enum] using this
    rw [e]

/-- Helper: the play/pause section never touches the track list or index. -/
theorem sec2_fields (tmpl : Bool) (inp : GestIn) (app : MusicState) (det : DetSt) :
    (sec2PlayPause tmpl inp app det).1.audioTracks = app.audioTracks ∧
    (sec2PlayPause tmpl inp app det).1.currentTrackIndex = app.currentTrackIndex := by
  unfold sec2PlayPause
  split_ifs <;> simp

/-- Helper: the skip section is either inert or wraps the index by one of the
two modulo formulas, keeping the track list. -/
theorem sec3_cases (inp : GestIn) (app : MusicState) (det : DetSt) (acts : Acts) :
    sec3Skip inp app det acts = (app, det, acts) ∨
    ((sec3Skip inp app det acts).1.audioTracks = app.audioTracks ∧
      ((sec3Skip inp app det acts).1.currentTrackIndex =
          (app.currentTrackIndex + 1) % app.audioTracks.length ∨
        (sec3Skip inp app det acts).1.currentTrackIndex =
          (app.currentTrackIndex + app.audioTracks.length - 1) %
            app.audioTracks.length)) := by
  unfold sec3Skip
  split_ifs <;> simp

/-- Helper: when the skip section reports a next-track fire it performed
exactly the forward wrap. -/
theorem sec3_next (inp : GestIn) (app : MusicState) (det : DetSt) (acts : Acts)
    (h : acts.nextTrack = false)
    (hfired : (sec3Skip inp app det acts).2.2.nextTrack = true) :
    sec3Skip inp app det acts =
      ({ app with
          currentTrackIndex := (app.currentTrackIndex + 1) % app.audioTracks.length
          isPlaying := true },
        { det with lastActionTime := inp.now }, { acts with nextTrack := true }) := by
  unfold sec3Skip at hfired ⊢
  split_ifs at hfired ⊢ <;> simp_all

/-- Helper: when the skip section reports a previous-track fire it performed
exactly the backward wrap. -/
theorem sec3_prev (inp : GestIn) (app : MusicState) (det : DetSt) (acts : Acts)
    (h : acts.prevTrack = false)
    (hfired : (sec3Skip inp app det acts).2.2.prevTrack = true) :
    sec3Skip inp app det acts =
      ({ app with
          currentTrackIndex :=
            (app.currentTrackIndex + app.audioTracks.length - 1) %
              app.audioTracks.length
          isPlaying := true },
        { det with lastActionTime := inp.now }, { acts with prevTrack := true }) := by
  unfold sec3Skip at hfired ⊢
  split_ifs at hfired ⊢ <;> simp_all

/-- C10: from any state with a nonempty track list and an in-range index,
every playback state update keeps the index in range and the list nonempty:
swipe-next wraps forward modulo the track count, swipe-prev wraps backward,
auto-advance on track end wraps forward, the pinch-and-throw removal shortens
the list by one and re-indexes modulo the shortened length, and the removal
with a single remaining track leaves the playback state unchanged. -/
theorem c10_track_invariant (tmpl ctl : Bool) (inp : GestIn) (app : MusicState)
    (tm : ℚ) (det : DetSt)
    (hlen : 0 < app.audioTracks.length)
    (hidx : app.currentTrackIndex < app.audioTracks.length) :
    (0 < (checkGestures tmpl ctl inp app tm det).1.audioTracks.length ∧
      (checkGestures tmpl ctl inp app tm det).1.currentTrackIndex <
        (checkGestures tmpl ctl inp app tm det).1.audioTracks.length) ∧
    ((handleEnded app).audioTracks = app.audioTracks ∧
      (handleEnded app).currentTrackIndex =
        (app.currentTrackIndex + 1) % app.audioTracks.length ∧
      (handleEnded app).currentTrackIndex < (handleEnded app).audioTracks.length) ∧
    ((checkGestures tmpl ctl inp app tm det).2.2.2.nextTrack = true →
      ((checkGestures tmpl ctl inp app tm det).1.audioTracks = app.audioTracks ∧
        (checkGestures tmpl ctl inp app tm det).1.currentTrackIndex =
          (app.currentTrackIndex + 1) % app.audioTracks.length)) ∧
    ((checkGestures tmpl ctl inp app tm det).2.2.2.prevTrack = true →
      ((checkGestures tmpl ctl inp app tm det).1.audioTracks = app.audioTracks ∧
        (checkGestures tmpl ctl inp app tm det).1.currentTrackIndex =
          (app.currentTrackIndex + app.audioTracks.length - 1) %
            app.audioTracks.length)) ∧
    ((checkGestures tmpl ctl inp app tm det).2.2.2.throwRemove = true →
      1 < app.audioTracks.length →
      ((checkGestures tmpl ctl inp app tm det).1.audioTracks.length =
          app.audioTracks.length - 1 ∧
        (checkGestures tmpl ctl inp app tm det).1.currentTrackIndex =
          app.currentTrackIndex % (app.audioTracks.length - 1))) ∧
    ((checkGestures tmpl ctl inp app tm det).2.2.2.throwRemove = true →
      app.audioTracks.length = 1 →
      (checkGestures tmpl ctl inp app tm det).1 = app) := by
  have hEnded : (handleEnded app).audioTracks = app.audioTracks ∧
      (handleEnded app).currentTrackIndex =
        (app.currentTrackIndex + 1) % app.audioTracks.length ∧
      (handleEnded app).currentTrackIndex < (handleEnded app).audioTracks.length := by
    unfold handleEnded
    exact ⟨rfl, rfl, Nat.mod_lt _ hlen⟩
  by_cases hthrow : (tmpl = true ∧ inp.isPinching = true ∧
      inp.vx * inp.vx + inp.vy * inp.vy > 9/4 ∧ inp.now - det.lastActionTime > 1500)
  · rw [checkGestures_throw tmpl ctl inp app tm det hthrow]
    dsimp only
    have hrem := removeCurrent_eq app
    refine ⟨?_, hEnded, ?_, ?_, ?_, ?_⟩
    · rw [hrem]
      split_ifs with h1
      · exact ⟨hlen, hidx⟩
      · dsimp only
        have hL : (app.audioTracks.eraseIdx app.currentTrackIndex).length =
            app.audioTracks.length - 1 := List.length_eraseIdx_of_lt hidx
        refine ⟨by rw [hL]; omega, Nat.mod_lt _ (by rw [hL]; omega)⟩
    · intro h
      exact absurd h (by simp [noActs])
    · intro h
      exact absurd h (by simp [noActs])
    · intro _ h1
      rw [hrem, if_neg (by omega)]
      dsimp only
      have hL : (app.audioTracks.eraseIdx app.currentTrackIndex).length =
          app.audioTracks.length - 1 := List.length_eraseIdx_of_lt hidx
      exact ⟨hL, by rw [hL]⟩
    · intro _ h1
      rw [hrem, if_pos (by omega)]
  · rw [checkGestures_noThrow tmpl ctl inp app tm det hthrow]
    dsimp only
    obtain ⟨⟨s2t, s2n, s2p⟩, _, _, _⟩ := sec2_char tmpl inp app det
    obtain ⟨s2tr, s2ix⟩ := sec2_fields tmpl inp app det
    obtain ⟨⟨s3t, _, _, _⟩, _, _⟩ :=
      sec3_char inp (sec2PlayPause tmpl inp app det).1
        (sec2PlayPause tmpl inp app det).2.1 (sec2PlayPause tmpl inp app det).2.2 s2n s2p
    refine ⟨?_, hEnded, ?_, ?_, ?_, ?_⟩
    · rw [(sec5_fields tmpl ctl inp _).2.1, (sec5_fields tmpl ctl inp _).2.2]
      rcases sec3_cases inp (sec2PlayPause tmpl inp app det).1
          (sec2PlayPause tmpl inp app det).2.1 (sec2PlayPause tmpl inp app det).2.2 with
        he | ⟨htr, hix⟩
      · rw [he]
        dsimp only
        rw [s2tr, s2ix]
        exact ⟨hlen, hidx⟩
      · rw [s2tr] at htr
        rw [s2tr, s2ix] at hix
        rw [htr]
        refine ⟨hlen, ?_⟩
        rcases hix with h | h <;> rw [h] <;> exact Nat.mod_lt _ hlen
    · intro h
      have e3 := sec3_next inp (sec2PlayPause tmpl inp app det).1
        (sec2PlayPause tmpl inp app det).2.1 (sec2PlayPause tmpl inp app det).2.2 s2n h
      rw [e3, (sec5_fields tmpl ctl inp _).2.1, (sec5_fields tmpl ctl inp _).2.2]
      dsimp only
      rw [s2tr, s2ix]
      exact ⟨rfl, rfl⟩
    · intro h
      have e3 := sec3_prev inp (sec2PlayPause tmpl inp app det).1
        (sec2PlayPause tmpl inp app det).2.1 (sec2PlayPause tmpl inp app det).2.2 s2p h
      rw [e3, (sec5_fields tmpl ctl inp _).2.1, (sec5_fields tmpl ctl inp _).2.2]
      dsimp only
      rw [s2tr, s2ix]
      exact ⟨rfl, rfl⟩
    · intro h
      rw [s3t, s2t] at h
      exact absurd h (by simp)
    · intro h
      rw [s3t, s2t] at h
      exact absurd h (by simp)

/-- C10 witness: the invariant theorem applied to the initial three-track
state at index 0 with a swipe-right frame. -/
theorem c10_track_invariant_witness :
    0 < (checkGestures false true ⟨1000, 1, 0, false, 0, 1/2⟩
      ⟨[0, 1, 2], 0, false, 1/2⟩ 0 ⟨0, false, false⟩).1.audioTracks.length ∧
    (checkGestures false true ⟨1000, 1, 0, false, 0, 1/2⟩
      ⟨[0, 1, 2], 0, false, 1/2⟩ 0 ⟨0, false, false⟩).1.currentTrackIndex <
      (checkGestures false true ⟨1000, 1, 0, false, 0, 1/2⟩
        ⟨[0, 1, 2], 0, false, 1/2⟩ 0 ⟨0, false, false⟩).1.audioTracks.length :=
  (c10_track_invariant false true ⟨1000, 1, 0, false, 0, 1/2⟩
    ⟨[0, 1, 2], 0, false, 1/2⟩ 0 ⟨0, false, false⟩ (by norm_num) (by norm_num)).1

/-- C4: in the 3D music interface, a pinch rising edge with the cursor inside a
hit zone fires that zone's action, starts no drag and leaves the group frozen;
a rising edge outside every zone starts a drag capturing offset = group
position - cursor point (so that cursor + offset is exactly the group
position); every held-pinch frame of a drag sets the group position to exactly
cursorPoint + capturedOffset with no smoothing; and the pinch falling edge
ends the drag with the group position frozen. -/
theorem c4_click_vs_drag (st : IfaceSt) (app : MusicState) (cur : V3) :
    (∀ b, st.wasPinching = false → st.isDragging = false →
      findHover (cur.sub st.groupPos) = some b →
      musicIfaceFrame st app cur true =
        (⟨st.groupPos, false, st.dragOffset, some b, true⟩,
          handleButtonClick b app, some b)) ∧
    (st.wasPinching = false → st.isDragging = false →
      findHover (cur.sub st.groupPos) = none →
      (musicIfaceFrame st app cur true =
        (⟨st.groupPos, true, st.groupPos.sub cur, none, true⟩, app, none) ∧
        cur.add (st.groupPos.sub cur) = st.groupPos)) ∧
    (st.isDragging = true → st.wasPinching = true →
      ((musicIfaceFrame st app cur true).1.groupPos = cur.add st.dragOffset ∧
        (musicIfaceFrame st app cur true).1.isDragging = true ∧
        (musicIfaceFrame st app cur true).2.1 = app ∧
        (musicIfaceFrame st app cur true).2.2 = none)) ∧
    (st.wasPinching = true →
      ((musicIfaceFrame st app cur false).1.isDragging = false ∧
        (musicIfaceFrame st app cur false).1.groupPos = st.groupPos)) := by
  refine ⟨?_, ?_, ?_, ?_⟩
  · intro b hw hd hh
    simp [musicIfaceFrame, hw, hd, hh]
  · intro hw hd hh
    constructor
    · simp [musicIfaceFrame, hw, hd, hh]
    · simp only [V3.add, V3.sub]
      refine ?_
      cases cur
      cases st.groupPos
      simp only [V3.mk.injEq]
      refine ⟨by ring, by ring, by ring⟩
  · intro hd hw
    simp [musicIfaceFrame, hw, hd]
  · intro hw
    simp [musicIfaceFrame, hw]

/-- C4 witness: with the group at its initial position (0, -2, 6), a pinch
rising edge with the cursor at the group center clicks the play zone, and one
with the cursor far outside every zone starts a drag capturing the offset. -/
theorem c4_click_vs_drag_witness :
    (musicIfaceFrame ⟨⟨0, -2, 6⟩, false, ⟨0, 0, 0⟩, none, false⟩
        ⟨[0, 1], 0, false, 1/2⟩ ⟨0, -2, 6⟩ true =
      (⟨⟨0, -2, 6⟩, false, ⟨0, 0, 0⟩, some .playB, true⟩,
        handleButtonClick .playB ⟨[0, 1], 0, false, 1/2⟩, some .playB)) ∧
    (musicIfaceFrame ⟨⟨0, -2, 6⟩, false, ⟨0, 0, 0⟩, none, false⟩
        ⟨[0, 1], 0, false, 1/2⟩ ⟨9, 9, 6⟩ true =
      (⟨⟨0, -2, 6⟩, true, (⟨0, -2, 6⟩ : V3).sub ⟨9, 9, 6⟩, none, true⟩,
        ⟨[0, 1], 0, false, 1/2⟩, none)) := by
  constructor
  · exact (c4_click_vs_drag ⟨⟨0, -2, 6⟩, false, ⟨0, 0, 0⟩, none, false⟩
      ⟨[0, 1], 0, false, 1/2⟩ ⟨0, -2, 6⟩).1 .playB rfl rfl
      (by norm_num [findHover, hitZones, V3.sub, List.find?])
  · exact ((c4_click_vs_drag ⟨⟨0, -2, 6⟩, false, ⟨0, 0, 0⟩, none, false⟩
      ⟨[0, 1], 0, false, 1/2⟩ ⟨9, 9, 6⟩).2.1 rfl rfl
      (by norm_num [findHover, hitZones, V3.sub, List.find?])).1

/-- C5 (code bug): the no-hand branch of the HandTracker emits exactly the
neutral bundle (velocity (0,0), pinchDistance 1, rotation 0, not pinching,
position (0.5, 0.5)) and clears the stored previous palm center, so the first
hand frame after re-acquisition reports zero velocity; but the bundle read by
consumers is NOT always fully populated: the App-level ref is initialized with
an object literal that has no position field at all (violating the GestureData
interface, which requires it) and pinchDistance 0 instead of the neutral 1,
and the mouse-fallback bundle also omits the position field. -/
theorem c5_bundle_population :
    initialGestureData.pos = none ∧
    initialGestureData.pinchDistance = 0 ∧
    neutralBundle.pinchDistance = 1 ∧
    neutralBundle.pos = some ⟨1/2, 1/2⟩ ∧
    neutralBundle.vel = ⟨0, 0⟩ ∧
    neutralBundle.isPinching = false ∧
    neutralBundle.rot = 0 ∧
    (∀ (e : MathEnv) (prev : Option Vec2),
      handTrackFrame e none prev = (neutralBundle, 1/2, none)) ∧
    (∀ (e : MathEnv) (h : Landmarks),
      (handTrackFrame e (some h) none).1.vel = ⟨0, 0⟩) ∧
    (∀ (e : MathEnv) (h : Landmarks),
      (handTrackFrame e (some h) none).1.pos.isSome = true) ∧
    (∀ (vx vy cx : ℚ) (b : Bool), (mouseGesture vx vy cx b).pos = none) :=
  ⟨rfl, rfl, rfl, rfl, rfl, rfl, rfl, fun _ _ => rfl, fun _ _ => rfl,
    fun _ _ => rfl, fun _ _ _ _ => rfl⟩

/-- C8: on an active-playback visualizer frame, an all-zero spectrum makes the
bass scalar come from the time-based sine oscillator (flagged internally as
simulation); a nonzero spectrum makes it the mean of the first 10 bins divided
by 255, which lies in [0, 1]; and the expansion computation consumes only the
resulting scalar, so any two frames with equal bass scalars produce equal
expansions regardless of which source produced them. -/
theorem c8_audio_fallback (spec : List ℕ) (sv : ℚ)
    (hlen : 10 ≤ spec.length) (hbytes : ∀ b ∈ spec, b ≤ 255) :
    (spec.sum = 0 →
      collectAudio true spec sv = ⟨(sv + 1) * (1/5), true⟩) ∧
    (spec.sum ≠ 0 →
      ((collectAudio true spec sv).usingSimulation = false ∧
        (collectAudio true spec sv).audioBass =
          (((spec.take 10).sum : ℚ) / 10) / 255 ∧
        0 ≤ (collectAudio true spec sv).audioBass ∧
        (collectAudio true spec sv).audioBass ≤ 1)) ∧
    (∀ (spec2 : List ℕ) (sv2 : ℚ) (v pf pa : Bool) (o pd : ℚ),
      (collectAudio true spec sv).audioBass = (collectAudio true spec2 sv2).audioBass →
      finalExpansionOf v (collectAudio true spec sv).audioBass o pd pf pa =
        finalExpansionOf v (collectAudio true spec2 sv2).audioBass o pd pf pa) := by
  have htake : (spec.take 10).sum ≤ spec.sum := by
    conv_rhs => rw [← List.take_append_drop 10 spec]
    rw [List.sum_append]
    omega
  refine ⟨?_, ?_, ?_⟩
  · intro hz
    unfold collectAudio
    rw [if_pos rfl, if_pos ⟨by omega, hz⟩]
  · intro hz
    have hcond : ¬ ((spec.take 10).sum = 0 ∧ spec.sum = 0) := by
      rintro ⟨_, h⟩
      exact hz h
    have he : collectAudio true spec sv =
        { audioBass := (((spec.take 10).sum : ℚ) / 10) / 255, usingSimulation := false } := by
      unfold collectAudio
      rw [if_pos rfl, if_neg hcond]
    rw [he]
    refine ⟨rfl, rfl, by positivity, ?_⟩
    have hbound : (spec.take 10).sum ≤ 2550 := by
      have hlen10 : (spec.take 10).length = 10 := by
        rw [List.length_take]
        omega
      have := List.sum_le_card_nsmul (spec.take 10) 255
        (fun x hx => hbytes x (List.mem_of_mem_take hx))
      rw [hlen10] at this
      simpa using this
    have : ((spec.take 10).sum : ℚ) ≤ 2550 := by exact_mod_cast hbound
    rw [div_div]
    rw [div_le_one (by norm_num)]
    linarith
  · intro spec2 sv2 v pf pa o pd h
    rw [h]

/-- C8 witness: a 128-bin all-zero spectrum while active yields the oscillator
value, and a spectrum with one loud bin yields the normalized bin mean. -/
theorem c8_audio_fallback_witness :
    collectAudio true (List.replicate 128 0) (1/3) = ⟨(1/3 + 1) * (1/5), true⟩ ∧
    (collectAudio true (255 :: List.replicate 127 0) 0).audioBass =
      (((((255 :: List.replicate 127 0 : List ℕ)).take 10).sum : ℚ) / 10) / 255 := by
  constructor
  · exact (c8_audio_fallback (List.replicate 128 0) (1/3) (by norm_num)
      (by intro b hb; rw [List.eq_of_mem_replicate hb]; omega)).1 (by simp)
  · have hb : ∀ b ∈ (255 :: List.replicate 127 0), b ≤ 255 := by
      intro b hbm
      rcases List.mem_cons.mp hbm with h | h
      · omega
      · rw [List.eq_of_mem_replicate h]
        omega
    have hs : (255 :: List.replicate 127 0).sum ≠ 0 := by simp
    exact ((c8_audio_fallback (255 :: List.replicate 127 0) 0
      (by norm_num) hb).2.1 hs).2.1

/-- Helper: the double value of Math.PI is positive. -/
theorem ratPi_pos : 0 < ratPi := by norm_num [ratPi]

/-- Helper: for every loop index i < count, the acos argument -1 + 2i/count
lies in [-1, 1], so phi is finite. -/
theorem acos_arg_bounds (i count : ℕ) (hi : i < count) :
    -1 ≤ -1 + (2 * (i : ℚ)) / (count : ℚ) ∧
      -1 + (2 * (i : ℚ)) / (count : ℚ) ≤ 1 := by
  have hc0 : (0 : ℚ) < (count : ℚ) := by
    exact_mod_cast Nat.lt_of_le_of_lt (Nat.zero_le i) hi
  constructor
  · have : 0 ≤ (2 * (i : ℚ)) / (count : ℚ) := by positivity
    linarith
  · have hic : (i : ℚ) ≤ (count : ℚ) := by exact_mod_cast hi.le
    have : (2 * (i : ℚ)) / (count : ℚ) ≤ 2 := by
      rw [div_le_iff hc0]
      linarith
    linarith

/-- Helper: for every in-range loop index and every random stream position,
the loop body produces a finite triple: all acos arguments are in range, all
sqrt arguments are nonnegative, and every Math.pow call has a nonnegative base
or an integer exponent. -/
theorem particleAt_isSome (e : MathEnv) (he : EnvOK e) (ty : ShapeTy)
    (count i rc : ℕ) (hi : i < count) :
    ((particleAt e ty count i rc).1).isSome = true := by
  obtain ⟨ha1, ha2⟩ := acos_arg_bounds i count hi
  have hphi : jacos e (-1 + (2 * (i : ℚ)) / (count : ℚ)) =
      some (e.acosq (-1 + (2 * (i : ℚ)) / (count : ℚ))) := by
    unfold jacos
    rw [if_pos ⟨ha1, ha2⟩]
  have hsq : jsqrtO e ((count : ℚ) * ratPi) =
      some (e.sqrtq ((count : ℚ) * ratPi)) := by
    unfold jsqrtO
    rw [if_pos (mul_nonneg (Nat.cast_nonneg count) ratPi_pos.le)]
  cases ty with
  | sphere => simp [particleAt, hphi, hsq]
  | heart => simp [particleAt, jpow, Rat.den_ofNat]
  | flower => simp [particleAt, hphi, hsq, jpow, Rat.den_ofNat]
  | saturn =>
    simp only [particleAt]
    split_ifs
    · rfl
    · simp [hphi, hsq]
  | buddha =>
    simp only [particleAt]
    split_ifs
    · simp [hphi, hsq]
    · simp [hphi, hsq]
    · simp [jsqrtO, (he (rc + 2)).1, jpow, Rat.den_ofNat]
  | spiral => rfl
  | fireworks => simp [particleAt, hphi, hsq, jpow, (he rc).1]
  | gallery => simp [particleAt, hphi, hsq]
  | musicPlayer =>
    simp only [particleAt]
    split_ifs <;> rfl

/-- Helper: the generator loop, run with matching remaining-count and array
length, completes with every store in range and returns an array of the same
length. -/
theorem genLoop_total (e : MathEnv) (he : EnvOK e) (ty : ShapeTy) (count : ℕ) :
    ∀ (rem i rc : ℕ) (acc : List ℚ), acc.length = count * 3 → i + rem = count →
      ∃ l, genLoop e ty count rem i rc acc = some l ∧ l.length = count * 3 := by
  intro rem
  induction rem with
  | zero =>
    intro i rc acc hacc _
    exact ⟨acc, rfl, hacc⟩
  | succ n ih =>
    intro i rc acc hacc hcnt
    have hi : i < count := by omega
    obtain ⟨⟨x, y, z⟩, hxyz⟩ :=
      Option.isSome_iff_exists.mp (particleAt_isSome e he ty count i rc hi)
    have h1 : i * 3 < acc.length := by rw [hacc]; omega
    have h2 : i * 3 + 1 < (acc.set (i * 3) x).length := by
      rw [List.length_set, hacc]; omega
    have h3 : i * 3 + 2 < ((acc.set (i * 3) x).set (i * 3 + 1) y).length := by
      rw [List.length_set, List.length_set, hacc]; omega
    have e1 : writeAt acc (i * 3) x = some (acc.set (i * 3) x) := by
      unfold writeAt
      rw [if_pos h1]
    have e2 : writeAt (acc.set (i * 3) x) (i * 3 + 1) y =
        some ((acc.set (i * 3) x).set (i * 3 + 1) y) := by
      unfold writeAt
      rw [if_pos h2]
    have e3 : writeAt ((acc.set (i * 3) x).set (i * 3 + 1) y) (i * 3 + 2) z =
        some (((acc.set (i * 3) x).set (i * 3 + 1) y).set (i * 3 + 2) z) := by
      unfold writeAt
      rw [if_pos h3]
    obtain ⟨l, hl, hlen⟩ := ih (i + 1) (particleAt e ty count i rc).2
      (((acc.set (i * 3) x).set (i * 3 + 1) y).set (i * 3 + 2) z)
      (by simp [hacc]) (by omega)
    refine ⟨l, ?_, hlen⟩
    unfold genLoop
    rw [hxyz]
    simp only [e1, e2, e3, Option.bind_eq_bind, Option.some_bind]
    exact hl

/-- C1: for every supported shape identifier and every count of at least one,
generateParticles completes: it returns (some) array of exactly 3*count finite
values, with no NaN or Infinity produced at any step (a NaN would collapse the
result to none) and no array store out of range (an out-of-range store would
collapse the result to none), including for the Music equalizer shape when
count is not divisible by 8 and when count < 8 (where the per-bar count floors
to zero, the JS division by zero makes barIndex NaN or Infinity, and every
index takes the fallback cloud placement). -/
theorem c1_generateParticles_total (e : MathEnv) (he : EnvOK e) (ty : ShapeTy)
    (count : ℕ) (hc : 1 ≤ count) :
    ∃ l, generateParticles e ty count = some l ∧ l.length = 3 * count := by
  obtain ⟨l, hl, hlen⟩ := genLoop_total e he ty count count 0 0
    (List.replicate (count * 3) 0) (by simp) (by omega)
  refine ⟨l, hl, ?_⟩
  rw [hlen, Nat.mul_comm]

/-- C1 witness: with a concrete environment (zero-valued trig oracle, constant
zero random stream) the theorem applies to the Music equalizer shape at
count = 10, which is neither divisible by 8 nor below the bar count, and at
count = 5 < 8 where every per-bar count floors to zero. -/
theorem c1_generateParticles_total_witness :
    (∃ l, generateParticles ⟨fun _ => 0, fun _ => 0, fun _ => 0, fun _ => 0,
      fun _ _ => 0, fun _ _ => 0, fun _ => 0⟩ ShapeTy.musicPlayer 10 = some l ∧
      l.length = 3 * 10) ∧
    (∃ l, generateParticles ⟨fun _ => 0, fun _ => 0, fun _ => 0, fun _ => 0,
      fun _ _ => 0, fun _ _ => 0, fun _ => 0⟩ ShapeTy.musicPlayer 5 = some l ∧
      l.length = 3 * 5) :=
  ⟨c1_generateParticles_total _ (fun _ => ⟨le_refl 0, by norm_num⟩)
      ShapeTy.musicPlayer 10 (by norm_num),
    c1_generateParticles_total _ (fun _ => ⟨le_refl 0, by norm_num⟩)
      ShapeTy.musicPlayer 5 (by norm_num)⟩

/-- Helper (modelling justification): when count < 8 the per-bar particle
count floors to zero, the JS division i / 0 evaluates to NaN (i = 0) or
Infinity (i > 0), and the comparison barIndex < 8 is false either way, so the
bar branch is unreachable: the guard being true forces particlesPerBar ≥ 1. -/
theorem musicGuard_ppb_pos (i ppb : ℕ)
    (h : jltB (jfloor (jdiv (.fin (i : ℚ)) (.fin (ppb : ℚ)))) (.fin 8) = true) :
    0 < ppb := by
  rcases Nat.eq_zero_or_pos ppb with h0 | h0
  · subst h0
    rcases Nat.eq_zero_or_pos i with hi | hi
    · subst hi
      simp [jdiv, jfloor, jltB] at h
    · have hiq : (0 : ℚ) < (i : ℚ) := by exact_mod_cast hi
      simp [jdiv, jfloor, jltB, hiq, hiq.ne'] at h
  · exact h0

/-- Helper (modelling justification): when particlesPerBar ≥ 1 the JsNum guard
agrees with the exact natural-number comparison floor(i / ppb) < 8 used in the
bar branch of the model. -/
theorem musicGuard_eq_natDiv (i ppb : ℕ) (h : 0 < ppb) :
    jltB (jfloor (jdiv (.fin (i : ℚ)) (.fin (ppb : ℚ)))) (.fin 8) =
      decide (i / ppb < 8) := by
  have hb : ((ppb : ℚ)) ≠ 0 := by positivity
  simp only [jdiv, if_neg hb, jfloor, jltB]
  rw [Rat.floor_natCast_div_natCast]
  congr 1
  rw [eq_iff_iff]
  constructor <;> intro hlt <;> exact_mod_cast hlt

/-- Helper: closed form of the openness EMA driven by a held input of 1.0:
the gap to 1 shrinks by the factor 9/10 each frame. -/
theorem opennessSeq_closed (o0 : ℚ) : ∀ n, 1 - opennessSeq o0 n = (9/10)^n * (1 - o0)
  | 0 => by simp [opennessSeq]
  | n + 1 => by
    have ih := opennessSeq_closed o0 n
    simp only [opennessSeq, handOpennessStep]
    calc 1 - (opennessSeq o0 n + (1 - opennessSeq o0 n) * (1/10))
        = (9/10) * (1 - opennessSeq o0 n) := by ring
      _ = (9/10) * ((9/10)^n * (1 - o0)) := by rw [ih]
      _ = (9/10)^(n+1) * (1 - o0) := by ring

/-- Helper: the smoothed openness stays strictly below 1 whenever it starts
below 1. -/
theorem opennessSeq_lt_one (o0 : ℚ) (h : o0 < 1) (n : ℕ) : opennessSeq o0 n < 1 := by
  have hc := opennessSeq_closed o0 n
  have h1 : (0:ℚ) < 1 - o0 := by linarith
  have hp : (0:ℚ) < (9/10)^n * (1 - o0) := by positivity
  linarith

/-- Helper: the smoothed openness increases strictly whenever it starts below
1. -/
theorem opennessSeq_strictMono (o0 : ℚ) (h : o0 < 1) : StrictMono (opennessSeq o0) := by
  apply strictMono_nat_of_lt_succ
  intro n
  have hlt := opennessSeq_lt_one o0 h n
  simp only [opennessSeq, handOpennessStep]
  linarith

/-- Helper: the smoothed openness stays nonnegative. -/
theorem opennessSeq_nonneg (o0 : ℚ) (h : 0 ≤ o0) (n : ℕ) : 0 ≤ opennessSeq o0 n := by
  induction n with
  | zero => exact h
  | succ n ih =>
    simp only [opennessSeq, handOpennessStep]
    linarith

/-- Helper: with nonnegative openness the 0.01 floor in the expansion formula
never binds, so the expansion is exactly 0.2 + openness * 2.8. -/
theorem expansionSeq_eq (o0 : ℚ) (h : 0 ≤ o0) (n : ℕ) :
    expansionSeq o0 n = 1/5 + opennessSeq o0 n * (14/5) := by
  have ho := opennessSeq_nonneg o0 h n
  simp only [expansionSeq, finalExpansionOf]
  norm_num
  nlinarith

/-- Helper: the expansion factor increases strictly with the openness. -/
theorem expansionSeq_strictMono (o0 : ℚ) (h0 : 0 ≤ o0) (h1 : o0 < 1) :
    StrictMono (expansionSeq o0) := by
  intro a b hab
  rw [expansionSeq_eq o0 h0, expansionSeq_eq o0 h0]
  have := opennessSeq_strictMono o0 h1 hab
  linarith

/-- Helper: the smoothed openness converges to 1 (as a real sequence). -/
theorem opennessSeq_tendsto_one (o0 : ℚ) :
    Filter.Tendsto (fun n => ((opennessSeq o0 n : ℚ) : ℝ)) Filter.atTop (nhds 1) := by
  have hgeo : Filter.Tendsto (fun n : ℕ => (9/10 : ℝ)^n * (1 - (o0 : ℝ)))
      Filter.atTop (nhds 0) := by
    have h := tendsto_pow_atTop_nhds_zero_of_lt_one
      (by norm_num : (0:ℝ) ≤ 9/10) (by norm_num : (9/10:ℝ) < 1)
    simpa using h.mul_const (1 - (o0 : ℝ))
  have heq : ∀ n, ((opennessSeq o0 n : ℚ) : ℝ) = 1 - (9/10 : ℝ)^n * (1 - (o0 : ℝ)) := by
    intro n
    have hq := opennessSeq_closed o0 n
    have hr := congrArg (fun q : ℚ => (q : ℝ)) hq
    push_cast at hr
    linarith
  have h2 : Filter.Tendsto (fun _ : ℕ => (1:ℝ)) Filter.atTop (nhds 1) :=
    tendsto_const_nhds
  have h3 := h2.sub hgeo
  rw [sub_zero] at h3
  exact h3.congr (fun n => (heq n).symm)

/-- Helper: the expansion factor converges to its computed maximum 3.0. -/
theorem expansionSeq_tendsto_three (o0 : ℚ) (h0 : 0 ≤ o0) :
    Filter.Tendsto (fun n => ((expansionSeq o0 n : ℚ) : ℝ)) Filter.atTop (nhds 3) := by
  have h := (opennessSeq_tendsto_one o0).mul_const ((14:ℝ)/5)
  have h2 := h.const_add ((1:ℝ)/5)
  have heq : ∀ n, ((expansionSeq o0 n : ℚ) : ℝ) =
      1/5 + ((opennessSeq o0 n : ℚ) : ℝ) * (14/5) := by
    intro n
    have hq := expansionSeq_eq o0 h0 n
    have hr := congrArg (fun q : ℚ => (q : ℝ)) hq
    push_cast at hr
    linarith
  have h3 : (1:ℝ)/5 + 1 * (14/5) = 3 := by norm_num
  rw [h3] at h2
  exact h2.congr (fun n => (heq n).symm)

/-- Helper: the expansion factor in closed form: 3 minus a geometric gap. -/
theorem expansionSeq_closed_real (o0 : ℚ) (h0 : 0 ≤ o0) (n : ℕ) :
    ((expansionSeq o0 n : ℚ) : ℝ) =
      3 - (14/5) * (1 - (o0 : ℝ)) * (9/10 : ℝ)^n := by
  have hq1 := expansionSeq_eq o0 h0 n
  have hq2 := opennessSeq_closed o0 n
  have hr1 := congrArg (fun q : ℚ => (q : ℝ)) hq1
  have hr2 := congrArg (fun q : ℚ => (q : ℝ)) hq2
  push_cast at hr1 hr2
  nlinarith [hr1, hr2]

/-- Helper: a sequence whose distance to L contracts by a factor |a| < 1 up to
a geometrically decaying disturbance C * rho^n converges to L. -/
theorem geo_tracking_tendsto (u : ℕ → ℝ) (a C rho L : ℝ)
    (ha : |a| < 1) (hr0 : 0 ≤ rho) (hr1 : rho < 1) (hC : 0 ≤ C)
    (hrec : ∀ n, |u (n+1) - L| ≤ |a| * |u n - L| + C * rho^n) :
    Filter.Tendsto u Filter.atTop (nhds L) := by
  set m : ℝ := max (max |a| rho) (1/2) with hmdef
  have hma : |a| ≤ m := le_trans (le_max_left _ _) (le_max_left _ _)
  have hmr : rho ≤ m := le_trans (le_max_right _ _) (le_max_left _ _)
  have hmh : (1/2 : ℝ) ≤ m := le_max_right _ _
  have hm0 : (0:ℝ) ≤ m := by linarith
  have hm1 : m < 1 := max_lt (max_lt ha hr1) (by norm_num)
  have key : ∀ n, |u n - L| ≤ |u 0 - L| * m^n + (2*C) * ((n:ℝ) * m^n) := by
    intro n
    induction n with
    | zero => simp
    | succ k ih =>
      have h1 := hrec k
      have hmk : (0:ℝ) ≤ m^k := pow_nonneg hm0 _
      have hrm : rho^k ≤ m^k := pow_le_pow_left hr0 hmr k
      have step1 : |a| * |u k - L| ≤ m * |u k - L| :=
        mul_le_mul_of_nonneg_right hma (abs_nonneg _)
      have step2 : m * |u k - L| ≤ m * (|u 0 - L| * m^k + (2*C) * ((k:ℝ) * m^k)) :=
        mul_le_mul_of_nonneg_left ih hm0
      have step3 : C * rho^k ≤ C * m^k := mul_le_mul_of_nonneg_left hrm hC
      have step4 : C * m^k ≤ (2*C) * m * m^k := by
        have hp := mul_nonneg (mul_nonneg hC hmk) (by linarith : (0:ℝ) ≤ 2*m - 1)
        nlinarith [hp]
      have hcast : ((k:ℝ) + 1) = ((k+1 : ℕ) : ℝ) := by push_cast; ring
      calc |u (k+1) - L| ≤ |a| * |u k - L| + C * rho^k := h1
        _ ≤ m * (|u 0 - L| * m^k + (2*C) * ((k:ℝ) * m^k)) + (2*C) * m * m^k := by
            linarith
        _ = |u 0 - L| * m^(k+1) + (2*C) * ((((k:ℝ)) + 1) * m^(k+1)) := by ring
        _ = |u 0 - L| * m^(k+1) + (2*C) * ((((k+1:ℕ)):ℝ) * m^(k+1)) := by
            rw [hcast]
  have hg1 : Filter.Tendsto (fun n : ℕ => |u 0 - L| * m^n) Filter.atTop (nhds 0) := by
    have := (tendsto_pow_atTop_nhds_zero_of_lt_one hm0 hm1).const_mul (|u 0 - L|)
    simpa using this
  have hg2 : Filter.Tendsto (fun n : ℕ => (2*C) * ((n:ℝ) * m^n)) Filter.atTop (nhds 0) := by
    have := (tendsto_self_mul_const_pow_of_lt_one hm0 hm1).const_mul (2*C)
    simpa using this
  have hg : Filter.Tendsto
      (fun n : ℕ => |u 0 - L| * m^n + (2*C) * ((n:ℝ) * m^n)) Filter.atTop (nhds 0) := by
    have := hg1.add hg2
    simpa using this
  have habs : Filter.Tendsto (fun n => |u n - L|) Filter.atTop (nhds 0) :=
    squeeze_zero (fun n => abs_nonneg _) key hg
  rw [tendsto_iff_dist_tendsto_zero]
  simpa [Real.dist_eq] using habs

/-- Helper: with the sinusoidal shimmer term zero, each sample coordinate under
the per-frame update converges to basePosition * 3 (the base coordinate times
the maximal expansion), for every initial current position. -/
theorem trackSeq_zero_noise_tendsto (b dl o0 c0 : ℚ) (h00 : 0 ≤ o0) (h01 : o0 < 1)
    (hd0 : 0 < dl) (hd1 : dl < 1) :
    Filter.Tendsto (fun n => ((trackSeq b dl (fun _ => 0) o0 c0 n : ℚ) : ℝ))
      Filter.atTop (nhds ((b : ℝ) * 3)) := by
  have hdR0 : (0:ℝ) < (dl : ℝ) := by exact_mod_cast hd0
  have hdR1 : (dl : ℝ) < 1 := by exact_mod_cast hd1
  have ho0R : (o0 : ℝ) < 1 := by exact_mod_cast h01
  apply geo_tracking_tendsto _ (1 - 2*(dl:ℝ))
    (2*(dl:ℝ)*|(b:ℝ)| * ((14/5) * (1 - (o0:ℝ)))) (9/10) ((b:ℝ)*3)
  · exact abs_lt.mpr ⟨by linarith, by linarith⟩
  · norm_num
  · norm_num
  · exact mul_nonneg (by positivity) (mul_nonneg (by norm_num) (by linarith))
  · intro n
    have hrq : trackSeq b dl (fun _ => 0) o0 c0 (n+1) =
        trackSeq b dl (fun _ => 0) o0 c0 n +
          (b * expansionSeq o0 n + 0 * (1/10) * expansionSeq o0 n -
            trackSeq b dl (fun _ => 0) o0 c0 n) * (2 * dl) := rfl
    have hr := congrArg (fun q : ℚ => (q : ℝ)) hrq
    push_cast at hr
    have hEc := expansionSeq_closed_real o0 h00 n
    have hid : ((trackSeq b dl (fun _ => 0) o0 c0 (n+1) : ℚ) : ℝ) - (b:ℝ)*3 =
        (1 - 2*(dl:ℝ)) * (((trackSeq b dl (fun _ => 0) o0 c0 n : ℚ) : ℝ) - (b:ℝ)*3)
          + 2*(dl:ℝ)*(b:ℝ) * (((expansionSeq o0 n : ℚ) : ℝ) - 3) := by
      linear_combination hr
    have hEd : ((expansionSeq o0 n : ℚ) : ℝ) - 3 =
        -((14/5) * (1 - (o0:ℝ)) * (9/10:ℝ)^n) := by
      rw [hEc]
      ring
    have hnn : (0:ℝ) ≤ (14/5) * (1 - (o0:ℝ)) * (9/10:ℝ)^n :=
      mul_nonneg (mul_nonneg (by norm_num) (by linarith)) (by positivity)
    have he1 : |2*(dl:ℝ)*(b:ℝ) * (((expansionSeq o0 n : ℚ) : ℝ) - 3)| =
        2*(dl:ℝ)*|(b:ℝ)| * ((14/5) * (1 - (o0:ℝ)) * (9/10:ℝ)^n) := by
      rw [hEd, abs_mul, abs_neg, abs_of_nonneg hnn, abs_mul,
        abs_of_pos (by linarith : (0:ℝ) < 2*(dl:ℝ))]
    calc |((trackSeq b dl (fun _ => 0) o0 c0 (n+1) : ℚ) : ℝ) - (b:ℝ)*3|
        = |(1 - 2*(dl:ℝ)) * (((trackSeq b dl (fun _ => 0) o0 c0 n : ℚ) : ℝ) - (b:ℝ)*3)
            + 2*(dl:ℝ)*(b:ℝ) * (((expansionSeq o0 n : ℚ) : ℝ) - 3)| := by rw [hid]
      _ ≤ |(1 - 2*(dl:ℝ)) * (((trackSeq b dl (fun _ => 0) o0 c0 n : ℚ) : ℝ) - (b:ℝ)*3)|
            + |2*(dl:ℝ)*(b:ℝ) * (((expansionSeq o0 n : ℚ) : ℝ) - 3)| := abs_add _ _
      _ = |1 - 2*(dl:ℝ)| * |((trackSeq b dl (fun _ => 0) o0 c0 n : ℚ) : ℝ) - (b:ℝ)*3|
            + 2*(dl:ℝ)*|(b:ℝ)| * ((14/5) * (1 - (o0:ℝ)) * (9/10:ℝ)^n) := by
          rw [abs_mul, he1]
      _ = |1 - 2*(dl:ℝ)| * |((trackSeq b dl (fun _ => 0) o0 c0 n : ℚ) : ℝ) - (b:ℝ)*3|
            + 2*(dl:ℝ)*|(b:ℝ)| * ((14/5) * (1 - (o0:ℝ))) * (9/10:ℝ)^n := by ring

/-- Helper: two samples differing only in their initial current position stay
related by an exact geometric contraction: the influence of the initial
position decays by the factor (1 - 2*delta) per frame. -/
theorem trackSeq_diff_closed (b dl o0 c0 c0' : ℚ) (s : ℕ → ℚ) :
    ∀ n, trackSeq b dl s o0 c0 n - trackSeq b dl s o0 c0' n =
      (1 - 2*dl)^n * (c0 - c0')
  | 0 => by simp [trackSeq]
  | n + 1 => by
    have ih := trackSeq_diff_closed b dl o0 c0 c0' s n
    calc trackSeq b dl s o0 c0 (n+1) - trackSeq b dl s o0 c0' (n+1)
        = (1 - 2*dl) * (trackSeq b dl s o0 c0 n - trackSeq b dl s o0 c0' n) := by
          simp only [trackSeq]
          ring
      _ = (1 - 2*dl) * ((1 - 2*dl)^n * (c0 - c0')) := by rw [ih]
      _ = (1 - 2*dl)^(n+1) * (c0 - c0') := by ring

/-- Helper: the dependence on the initial current position vanishes in the
limit, for every shimmer stream. -/
theorem trackSeq_diff_tendsto (b dl o0 c0 c0' : ℚ) (s : ℕ → ℚ)
    (hd0 : 0 < dl) (hd1 : dl < 1) :
    Filter.Tendsto
      (fun n => ((trackSeq b dl s o0 c0 n - trackSeq b dl s o0 c0' n : ℚ) : ℝ))
      Filter.atTop (nhds 0) := by
  have hdR0 : (0:ℝ) < (dl : ℝ) := by exact_mod_cast hd0
  have hdR1 : (dl : ℝ) < 1 := by exact_mod_cast hd1
  have habs : |(1:ℝ) - 2*(dl:ℝ)| < 1 := abs_lt.mpr ⟨by linarith, by linarith⟩
  have h := (tendsto_pow_atTop_nhds_zero_of_abs_lt_one habs).mul_const
    ((c0 : ℝ) - (c0' : ℝ))
  rw [zero_mul] at h
  apply h.congr
  intro n
  have hq := trackSeq_diff_closed b dl o0 c0 c0' s n
  have hr := congrArg (fun q : ℚ => (q : ℝ)) hq
  push_cast at hr ⊢
  linarith

/-- C9 (amended): with the openness input held at 1.0, no pinch and the audio
boost inactive, starting from any smoothed openness in [0, 1) and any frame
delta dl in (0, 1): the smoothed openness (EMA, factor 0.1) increases strictly
monotonically toward 1; the expansion factor increases strictly monotonically
toward its computed maximum 3.0; with the per-frame sinusoidal shimmer term
equal to zero each sample coordinate converges to basePosition * 3 and the
distance from the origin converges to |basePosition| * 3, regardless of the
initial current position; and for every shimmer stream the dependence on the
initial current position decays geometrically (exactly (1 - 2*delta)^n) to
zero. (The original claim's unconditional distance convergence fails because
of the shimmer term; see the counterexample.) -/
theorem c9_expansion_convergence (o0 dl bx bY bz cx0 cy0 cz0 c0 c0' : ℚ)
    (s : ℕ → ℚ)
    (h00 : 0 ≤ o0) (h01 : o0 < 1) (hd0 : 0 < dl) (hd1 : dl < 1) :
    StrictMono (opennessSeq o0) ∧
    (∀ n, opennessSeq o0 n < 1) ∧
    Filter.Tendsto (fun n => ((opennessSeq o0 n : ℚ) : ℝ)) Filter.atTop (nhds 1) ∧
    StrictMono (expansionSeq o0) ∧
    Filter.Tendsto (fun n => ((expansionSeq o0 n : ℚ) : ℝ)) Filter.atTop (nhds 3) ∧
    Filter.Tendsto (fun n => ((trackSeq bx dl (fun _ => 0) o0 cx0 n : ℚ) : ℝ))
      Filter.atTop (nhds ((bx : ℝ) * 3)) ∧
    Filter.Tendsto (fun n =>
        Real.sqrt (((trackSeq bx dl (fun _ => 0) o0 cx0 n : ℚ) : ℝ)^2 +
          ((trackSeq bY dl (fun _ => 0) o0 cy0 n : ℚ) : ℝ)^2 +
          ((trackSeq bz dl (fun _ => 0) o0 cz0 n : ℚ) : ℝ)^2))
      Filter.atTop
      (nhds (Real.sqrt (((bx : ℝ))^2 + ((bY : ℝ))^2 + ((bz : ℝ))^2) * 3)) ∧
    (∀ n, trackSeq bx dl s o0 c0 n - trackSeq bx dl s o0 c0' n =
      (1 - 2*dl)^n * (c0 - c0')) ∧
    Filter.Tendsto
      (fun n => ((trackSeq bx dl s o0 c0 n - trackSeq bx dl s o0 c0' n : ℚ) : ℝ))
      Filter.atTop (nhds 0) := by
  refine ⟨opennessSeq_strictMono o0 h01, opennessSeq_lt_one o0 h01,
    opennessSeq_tendsto_one o0, expansionSeq_strictMono o0 h00 h01,
    expansionSeq_tendsto_three o0 h00,
    trackSeq_zero_noise_tendsto bx dl o0 cx0 h00 h01 hd0 hd1, ?_,
    trackSeq_diff_closed bx dl o0 c0 c0' s,
    trackSeq_diff_tendsto bx dl o0 c0 c0' s hd0 hd1⟩
  have hx := trackSeq_zero_noise_tendsto bx dl o0 cx0 h00 h01 hd0 hd1
  have hy := trackSeq_zero_noise_tendsto bY dl o0 cy0 h00 h01 hd0 hd1
  have hz := trackSeq_zero_noise_tendsto bz dl o0 cz0 h00 h01 hd0 hd1
  have hsum := ((hx.pow 2).add (hy.pow 2)).add (hz.pow 2)
  have hsqrt := (Real.continuous_sqrt.tendsto _).comp hsum
  have hval : Real.sqrt (((bx:ℝ)*3)^2 + ((bY:ℝ)*3)^2 + ((bz:ℝ)*3)^2) =
      Real.sqrt (((bx:ℝ))^2 + ((bY:ℝ))^2 + ((bz:ℝ))^2) * 3 := by
    rw [show ((bx:ℝ)*3)^2 + ((bY:ℝ)*3)^2 + ((bz:ℝ)*3)^2 =
      (((bx:ℝ))^2 + ((bY:ℝ))^2 + ((bz:ℝ))^2) * 9 by ring]
    rw [Real.sqrt_mul (by positivity) 9]
    rw [show (9:ℝ) = 3^2 by norm_num, Real.sqrt_sq (by norm_num)]
  rw [← hval]
  exact hsqrt

/-- Helper: from the App's initial smoothed openness 0.5 the EMA never drops
below 0.5. -/
theorem opennessSeq_half_lb : ∀ n, (1/2 : ℚ) ≤ opennessSeq (1/2) n
  | 0 => le_refl _
  | n + 1 => by
    have ih := opennessSeq_half_lb n
    simp only [opennessSeq, handOpennessStep]
    linarith

/-- Helper: from smoothed openness 0.5 the expansion never drops below 1.6. -/
theorem expansionSeq_half_lb (n : ℕ) : (8/5 : ℚ) ≤ expansionSeq (1/2) n := by
  rw [expansionSeq_eq (1/2) (by norm_num) n]
  have := opennessSeq_half_lb n
  linarith

/-- Helper: a sample with base position 0, initial current position 0.16,
frame delta 0.25 and the shimmer stream held at 1 never gets closer to the
origin than 0.16 on any axis: the update is c/2 + expansion/20 with expansion
at least 1.6. -/
theorem trackSeq_shimmer_lb :
    ∀ n, (4/25 : ℚ) ≤ trackSeq 0 (1/4) (fun _ => 1) (1/2) (4/25) n
  | 0 => le_refl _
  | n + 1 => by
    have ih := trackSeq_shimmer_lb n
    have hE := expansionSeq_half_lb n
    simp only [trackSeq]
    nlinarith

/-- C9 counterexample: the claim as stated (distance from the origin converges
to |basePosition| * maxExpansion for every sample and every initial position)
is false on the code because of the per-frame sinusoidal shimmer term
sin(time + i) * 0.1 * expansion added to every axis: with base position 0
(claimed limit |0| * 3 = 0, in the claimed distance form sqrt(0)*3), frame
delta 0.25, initial openness 0.5 and shimmer values 1 (realized by frame times
with sin(time + i) = 1, for instance time advancing by 2*pi per frame), the
sample's distance to the origin stays above 0.25 forever. -/
theorem c9_distance_counterexample :
    ¬ Filter.Tendsto (fun n =>
        Real.sqrt (((trackSeq 0 (1/4) (fun _ => 1) (1/2) (4/25) n : ℚ) : ℝ)^2 +
          ((trackSeq 0 (1/4) (fun _ => 1) (1/2) (4/25) n : ℚ) : ℝ)^2 +
          ((trackSeq 0 (1/4) (fun _ => 1) (1/2) (4/25) n : ℚ) : ℝ)^2))
      Filter.atTop
      (nhds (Real.sqrt (((0:ℝ))^2 + ((0:ℝ))^2 + ((0:ℝ))^2) * 3)) := by
  intro h
  have hval : Real.sqrt (((0:ℝ))^2 + ((0:ℝ))^2 + ((0:ℝ))^2) * 3 = 0 := by
    norm_num
  rw [hval] at h
  have hev := h.eventually_lt_const (by norm_num : (0:ℝ) < 1/4)
  obtain ⟨n, hn⟩ := hev.exists
  have hq := trackSeq_shimmer_lb n
  have hr : (4/25 : ℝ) ≤ ((trackSeq 0 (1/4) (fun _ => 1) (1/2) (4/25) n : ℚ) : ℝ) := by
    have := (Rat.cast_le (K := ℝ)).mpr hq
    push_cast at this
    linarith
  have hlow : (1/4 : ℝ) <
      Real.sqrt (((trackSeq 0 (1/4) (fun _ => 1) (1/2) (4/25) n : ℚ) : ℝ)^2 +
        ((trackSeq 0 (1/4) (fun _ => 1) (1/2) (4/25) n : ℚ) : ℝ)^2 +
        ((trackSeq 0 (1/4) (fun _ => 1) (1/2) (4/25) n : ℚ) : ℝ)^2) := by
    rw [Real.lt_sqrt (by norm_num)]
    nlinarith
  linarith

/-- C9 witness: the amended convergence theorem applied at openness 0.5 (the
App's initial smoothed value), frame delta 0.25, base coordinate 2 and two
different initial positions; the first conjunct instantiated. -/
theorem c9_expansion_convergence_witness :
    StrictMono (opennessSeq (1/2)) ∧
    Filter.Tendsto (fun n => ((trackSeq 2 (1/4) (fun _ => 0) (1/2) 7 n : ℚ) : ℝ))
      Filter.atTop (nhds (((2:ℚ) : ℝ) * 3)) := by
  have h := c9_expansion_convergence (1/2) (1/4) 2 2 2 7 7 7 5 9 (fun _ => 0)
    (by norm_num) (by norm_num) (by norm_num) (by norm_num)
  exact ⟨h.1, h.2.2.2.2.2.1⟩
